import Mathlib

/-!
Shallow embedding of the persistence / reconciliation core of the
`scraping-service` utilities module (`src/backend/scraping-service/src/utils.py`)
of the Disha repository, together with theorems settling the specification
claims about it.

Python dictionaries are modelled as association lists over a small inductive
type of Python values; the Supabase remote store is modelled as an explicit
state (lists of rows) and every remote write is recorded in a trace so that
"which write calls were issued" is a provable statement.  Machine-level
details that the claims never observe (the exact `repr` text Python's `str()`
produces for list/dict values, CSV quoting) are abstracted behind total
functions and noted at their definition sites.
-/

set_option autoImplicit false

namespace Disha

/-! Python string methods, modelled structurally over the character list of
the string so that every definition reduces inside the kernel (the library's
`String.trim`, `String.toLower`, … are well-founded-recursive and do not). -/

/-- Python `str.strip()`: drop whitespace from both ends. -/
def pyStrip (s : String) : String :=
  ⟨((s.data.dropWhile Char.isWhitespace).reverse.dropWhile Char.isWhitespace).reverse⟩

/-- Python `str.lower()` (ASCII case mapping suffices for this data). -/
def pyLower (s : String) : String := ⟨s.data.map Char.toLower⟩

/-- Python `s[:1].upper() + s[1:]`: upper-case the first character. -/
def pyCapFirst (s : String) : String :=
  match s.data with
  | [] => ""
  | c :: rest => ⟨Char.toUpper c :: rest⟩

/-- Python `s.split(sep)` for a one-character separator. -/
def pySplitChar (sep : Char) (s : String) : List String :=
  (s.data.foldr (fun c acc =>
    match acc with
    | [] => [[c]]
    | cur :: rest => if c = sep then [] :: cur :: rest else (c :: cur) :: rest)
    [[]]).map (fun l => ⟨l⟩)

/-- Python `s.endswith(t)`. -/
def pyEndsWith (s t : String) : Bool :=
  s.data.drop (s.data.length - t.data.length) = t.data

/-- Fuel-driven worker for `pyReplace` (fuel bounds the number of characters
still to examine, so plain structural recursion suffices). -/
def pyReplaceGo (pat rep : List Char) : Nat → List Char → List Char
  | 0, l => l
  | _, [] => []
  | fuel + 1, c :: rest =>
    if pat ≠ [] ∧ (c :: rest).take pat.length = pat then
      rep ++ pyReplaceGo pat rep fuel ((c :: rest).drop pat.length)
    else
      c :: pyReplaceGo pat rep fuel rest

/-- Python `s.replace(pat, rep)`: replace every non-overlapping occurrence,
left to right. -/
def pyReplace (s pat rep : String) : String :=
  ⟨pyReplaceGo pat.data rep.data s.data.length s.data⟩

/-- Python values as they occur in the records handled by `utils.py`:
`None`, strings, integers, lists and string-keyed dictionaries. -/
inductive PyVal where
  | pnone
  | pstr (s : String)
  | pint (n : Int)
  | plist (l : List PyVal)
  | pdict (d : List (String × PyVal))

/-- A Python dict with string keys, as an association list (keys unique,
insertion ordered — the guarantee CPython gives for dict literals). -/
abbrev Dict := List (String × PyVal)

/-- First value stored under key `k`, if any (Python `d[k]` presence test). -/
def dictFind (d : Dict) (k : String) : Option PyVal :=
  (d.find? (fun kv => kv.1 = k)).map (·.2)

/-- Python `d.get(k, default)`. -/
def dictGet (d : Dict) (k : String) (default : PyVal) : PyVal :=
  (dictFind d k).getD default

/-- Python truthiness (`if v`) restricted to the value shapes above. -/
def pyTruthy : PyVal → Bool
  | .pnone => false
  | .pstr s => s ≠ ""
  | .pint n => n ≠ 0
  | .plist l => !l.isEmpty
  | .pdict d => !d.isEmpty

/-- Python `str(v)`.  For strings it is the string itself; for the other
shapes the code only ever tests the result for non-blankness, so the exact
`repr` text is abstracted by a fixed non-blank placeholder. -/
def pyStrOf : PyVal → String
  | .pnone => "None"
  | .pstr s => s
  | .pint n => toString n
  | .plist _ => "<list>"
  | .pdict _ => "<dict>"

/-- The per-value condition of `sum(1 for v in d.values() if v and str(v).strip())`
in `deduplicate_colleges`. -/
def truthyNonblank (v : PyVal) : Bool :=
  pyTruthy v && pyStrip (pyStrOf v) ≠ ""

/-- Count of data-rich fields of a record (`deduplicate_colleges`, lines 81-82). -/
def truthyCount (c : Dict) : Nat :=
  (c.map (·.2)).countP truthyNonblank

/-- `college.get('College Name', college.get('name', '')).strip().lower()`
(line 70).  Python raises `AttributeError` when the stored value is not a
string; the embedding surfaces that as `.error`. -/
def dedupName (c : Dict) : Except String String :=
  match dictGet c "College Name" (dictGet c "name" (.pstr "")) with
  | .pstr s => .ok (pyLower (pyStrip s))
  | _ => .error "AttributeError: strip on non-string college name"

/-- First value bound to `k` in an association list (`seen[k]` lookup). -/
def alookup {α : Type} (l : List (String × α)) (k : String) : Option α :=
  (l.find? (fun kv => kv.1 = k)).map (·.2)

/-- `seen[k] = v` when `k` is already a key: replace the stored value,
keeping the key's original position (CPython dict update semantics). -/
def aupdate {α : Type} (l : List (String × α)) (k : String) (v : α) : List (String × α) :=
  l.map (fun kv => if kv.1 = k then (k, v) else kv)

/-- The loop of `deduplicate_colleges` (lines 68-85): `seen` is the insertion
ordered map from normalized name to the surviving record. -/
def dedupAux : List Dict → List (String × Dict) → Except String (List (String × Dict))
  | [], seen => .ok seen
  | c :: rest, seen =>
    match dedupName c with
    | .error e => .error e
    | .ok name =>
      if name = "" then
        dedupAux rest seen
      else
        match alookup seen name with
        | none => dedupAux rest (seen ++ [(name, c)])
        | some existing =>
          if truthyCount c > truthyCount existing then
            dedupAux rest (aupdate seen name c)
          else
            dedupAux rest seen

/-- `deduplicate_colleges` (utils.py lines 64-87): collapse records sharing a
normalized name, returning `list(seen.values())`. -/
def deduplicate_colleges (colleges : List Dict) : Except String (List Dict) :=
  (dedupAux colleges []).map (fun seen => seen.map (·.2))

/-- Total grouping key of the deduplicator: `none` when the record is
dropped (empty normalized name) or its name extraction raises. -/
def keyOf (c : Dict) : Option String :=
  match dedupName c with
  | .ok s => if s = "" then none else some s
  | .error _ => none

/-- The records of a batch grouped under normalized name `k`, in encounter
order. -/
def groupFor (colleges : List Dict) (k : String) : List Dict :=
  colleges.filter (fun c => decide (keyOf c = some k))

/-- The survivor of comparing an incumbent with a challenger: the challenger
wins only with a strictly greater truthy-field count (utils.py lines 79-85). -/
def pickRicher (a b : Dict) : Dict :=
  if truthyCount b > truthyCount a then b else a

/-- The record the deduplicator's policy keeps from a group: the leftmost
record attaining the maximal truthy-field count. -/
def leftmostMax : List Dict → Option Dict
  | [] => none
  | c :: cs => some (cs.foldl pickRicher c)

/-- Normalization of the `Entrance Exams` field of a course
(utils.py lines 131-142). -/
def normalizeExams (raw : PyVal) : List String :=
  match raw with
  | .plist l =>
    l.filterMap (fun e =>
      if pyTruthy e && pyStrip (pyStrOf e) ≠ "" then some (pyStrip (pyStrOf e)) else none)
  | .pstr s =>
    if pyStrip s ≠ "" then
      (pySplitChar ',' s).filterMap (fun e => if pyStrip e ≠ "" then some (pyStrip e) else none)
    else []
  | _ => []

/-- Transformation of one course dict (utils.py lines 144-150). -/
def transformCourse (course : Dict) : Dict :=
  [("name", dictGet course "Course Name" (.pstr "")),
   ("annual_fees", dictGet course "Fees" (.pstr "")),
   ("duration", dictGet course "Duration" (.pstr "")),
   ("degree_level", dictGet course "Degree Type" (.pstr "")),
   ("entrance_exams", .plist ((normalizeExams (dictGet course "Entrance Exams" (.pstr ""))).map .pstr))]

/-- The `for course in courses` loop (lines 129-151).  Iterating a value that
is not a list of dicts raises in Python; empty strings/dicts iterate zero
times and so succeed vacuously. -/
def transformCourses : PyVal → Except String (List Dict)
  | .plist l => go l
  | .pstr s => if s = "" then .ok [] else .error "AttributeError: get on non-dict course"
  | .pdict d => if d.isEmpty then .ok [] else .error "AttributeError: get on non-dict course"
  | _ => .error "TypeError: courses value not iterable"
where
  go : List PyVal → Except String (List Dict)
    | [] => .ok []
    | .pdict c :: rest => do
      let r ← go rest
      .ok (transformCourse c :: r)
    | _ :: _ => .error "AttributeError: get on non-dict course"

/-- `college.get('Location', '').strip()` (utils.py line 110); raises on a
non-string value. -/
def getLocationStr (college : Dict) : Except String String :=
  match dictGet college "Location" (.pstr "") with
  | .pstr s => Except.ok (pyStrip s)
  | _ => Except.error "AttributeError: strip on non-string location"

/-- Transformation of one college record (utils.py lines 108-153). -/
def transformCollege (college : Dict) : Except String Dict := do
  let location ← getLocationStr college
  let city := if location ≠ "" then pyStrip ((pySplitChar ',' location).headD "") else ""
  let tcourses ← transformCourses (dictGet college "Courses" (.plist []))
  Except.ok
    [("city", .pstr city),
     ("name", dictGet college "College Name" (.pstr "")),
     ("type", dictGet college "College Type" (.pstr "")),
     ("course_category", dictGet college "Course Category" (.pstr "")),
     ("total_courses", dictGet college "Total Courses" (.pstr "")),
     ("match_percentage", dictGet college "Match Percentage" (.pstr "")),
     ("match_level", dictGet college "Match Level" (.pstr "")),
     ("has_website_link", dictGet college "Has Website Link" (.pstr "")),
     ("college_id", dictGet college "College ID" (.pstr "")),
     ("courses", .plist (tcourses.map .pdict))]

/-- Well-typedness of the `Location` field for the transformer: absent or a
string (anything else makes the Python code raise `AttributeError`). -/
def locationOk (college : Dict) : Bool :=
  match dictFind college "Location" with
  | none => true
  | some (.pstr _) => true
  | some _ => false

/-- Well-typedness of the `Courses` field for the transformer: absent or a
list of dicts (anything else makes the Python code raise). -/
def coursesOk (college : Dict) : Bool :=
  match dictFind college "Courses" with
  | none => true
  | some (.plist l) => l.all (fun c => match c with | .pdict _ => true | _ => false)
  | some _ => false

/-- The transformer's fixed scalar field mapping, output key → legacy input
key (utils.py lines 114-123; `city` is derived from `Location`). -/
def scalarFieldMap : List (String × String) :=
  [("city", "Location"), ("name", "College Name"), ("type", "College Type"),
   ("course_category", "Course Category"), ("total_courses", "Total Courses"),
   ("match_percentage", "Match Percentage"), ("match_level", "Match Level"),
   ("has_website_link", "Has Website Link"), ("college_id", "College ID")]

/-- `transform_college_data` (utils.py lines 90-155). -/
def transform_college_data : List Dict → Except String (List Dict)
  | [] => .ok []
  | c :: rest => do
    let t ← transformCollege c
    let ts ← transform_college_data rest
    Except.ok (t :: ts)

/-! ### Remote store model (`save_to_supabase`, utils.py lines 158-303)

The Supabase store is modelled as explicit state: the `search_criteria`
table, the `scrape_jobs` table, and the id the store would hand out to the
next inserted row (Supabase generates ids; they are positive and unique).
Every remote *write* call the function issues is recorded in a trace list so
that claims about "which writes were issued" are provable.  The embedding
models the behaviour when the remote calls themselves succeed; the
outermost `except` branch (lines 292-303) that converts a remote-call
exception into `(False, msg)` is therefore unreachable here, and the
"insert returned no data" branch (lines 283-287) cannot fire because a
successful insert always returns the row. -/

/-- A row of the `search_criteria` table.  The four identity columns are
independently nullable; `llm_json` is the stored document. -/
structure Row where
  id : Nat
  career_path : Option String
  specialization : Option String
  university : Option String
  location : Option String
  llm_json : Dict

/-- A row of the `scrape_jobs` table (only the fields the code writes). -/
structure Job where
  id : String
  save_success : Option Bool
  save_message : Option String

/-- The remote store state. -/
structure DB where
  search_criteria : List Row
  scrape_jobs : List Job
  nextId : Nat

/-- One remote write call issued against the store. -/
inductive WriteOp where
  | updateCriteria (rowId : Nat)
  | insertCriteria (rowId : Nat)
  | updateJob (jobId : String)
deriving DecidableEq, Repr

/-- `_normalize_case` (utils.py lines 228-234): trim; empty (or falsy) becomes
a true null; otherwise first character upper-cased, rest untouched. -/
def _normalize_case : Option String → Option String
  | none => none
  | some v =>
    if v = "" then none
    else
      let cleaned := pyStrip v
      if cleaned = "" then none
      else some (pyCapFirst cleaned)

/-- `career_path.strip() if career_path else None` (utils.py lines 224-226). -/
def preStrip : Option String → Option String
  | none => none
  | some s => if s = "" then none else some (pyStrip s)

/-- The record written to `search_criteria` (utils.py lines 241-247):
normalized identity values plus the document. -/
structure RecordData where
  career_path : Option String
  specialization : Option String
  university : Option String
  location : Option String
  llm_json : Dict

/-- The normalization pipeline of utils.py lines 203-247 packaged as the
record that will be matched against and written. -/
def buildRecord (json_data : Dict)
    (career_path specialization location university : Option String) : RecordData :=
  { career_path := _normalize_case (preStrip career_path)
    specialization := _normalize_case (preStrip specialization)
    university := _normalize_case (preStrip university)
    location := _normalize_case (some (pyStrip (location.getD "")))
    llm_json := json_data }

/-- `_apply_filter` (utils.py lines 249-252) read as a row predicate on one
column: a `None` filter value matches only rows whose attribute is itself
null (`.filter(column, "is", "null")`); a non-null value is an exact match
(`.eq(column, value)`). -/
def _apply_filter (value : Option String) (attr : Option String) : Bool :=
  match value with
  | none => attr = none
  | some s => attr = some s

/-- Conjunction of the four filters applied at utils.py lines 257-262. -/
def matchesCriteria (rd : RecordData) (r : Row) : Bool :=
  _apply_filter rd.career_path r.career_path &&
  _apply_filter rd.specialization r.specialization &&
  _apply_filter rd.university r.university &&
  _apply_filter rd.location r.location

/-- Overwrite a row with the record data, keeping its id
(`update(record_data).eq("id", record_id)`, utils.py line 270). -/
def applyRecordData (r : Row) (rd : RecordData) : Row :=
  { r with career_path := rd.career_path, specialization := rd.specialization,
           university := rd.university, location := rd.location,
           llm_json := rd.llm_json }

/-- `_update_job_status` (utils.py lines 189-201): when a job id was supplied,
issue one update against `scrape_jobs` setting the save status fields. -/
def _update_job_status (db : DB) (job_id : Option String) (success : Bool)
    (message : String) : DB × List WriteOp :=
  match job_id with
  | none => (db, [])
  | some j =>
    ({ db with scrape_jobs := db.scrape_jobs.map (fun job =>
        if job.id = j then { job with save_success := some success,
                                      save_message := some message }
        else job) },
     [WriteOp.updateJob j])

/-- The insert branch (utils.py lines 276-282): insert the record, report the
generated id, record the outcome on the job. -/
def insertNewRecord (db : DB) (rd : RecordData) (job_id : Option String) :
    DB × List WriteOp × Bool × String :=
  let newRow : Row := { id := db.nextId, career_path := rd.career_path,
                        specialization := rd.specialization,
                        university := rd.university, location := rd.location,
                        llm_json := rd.llm_json }
  let db1 : DB := { db with search_criteria := db.search_criteria ++ [newRow],
                            nextId := db.nextId + 1 }
  let msg := "Inserted new record in Supabase (ID: " ++ toString db.nextId ++ ")"
  let (db2, jobOps) := _update_job_status db1 job_id true msg
  (db2, WriteOp.insertCriteria db.nextId :: jobOps, true, msg)

/-- `save_to_supabase` (utils.py lines 158-303).  `credsOk` models the
presence of `SUPABASE_URL`/`SUPABASE_KEY`.  Returns the new store state, the
trace of remote write calls issued, and the `(success, message)` pair the
Python function returns. -/
def save_to_supabase (credsOk : Bool) (db : DB) (json_data : Dict)
    (career_path specialization location university : Option String)
    (job_id : Option String) : DB × List WriteOp × Bool × String :=
  if !credsOk then
    (db, [], false, "Supabase credentials not found. Skipping Supabase save.")
  else
    let location_value := pyStrip (location.getD "")
    if location_value = "" then
      let msg := "Location is required to save data to Supabase."
      let (db1, ops) := _update_job_status db job_id false msg
      (db1, ops, false, msg)
    else
      let rd := buildRecord json_data career_path specialization location university
      match db.search_criteria.find? (fun r => matchesCriteria rd r) with
      | some row =>
        -- `record_id = existing.data[0].get("id"); if record_id:` — a falsy
        -- (zero) id falls through to the insert path (utils.py lines 268-277).
        if row.id ≠ 0 then
          let newTable := db.search_criteria.map
            (fun r => if r.id = row.id then applyRecordData r rd else r)
          let db1 : DB := { db with search_criteria := newTable }
          let msg := "Updated existing record in Supabase (ID: " ++ toString row.id ++ ")"
          let (db2, jobOps) := _update_job_status db1 job_id true msg
          (db2, WriteOp.updateCriteria row.id :: jobOps, true, msg)
        else
          insertNewRecord db rd job_id
      | none =>
        insertNewRecord db rd job_id

/-! ### Local filesystem model and the write sinks
(utils.py lines 463-618 and 631-689)

The local filesystem is modelled as three maps keyed by file path, one per
physical file kind the module writes (CSV, JSON document, JSONL); the claims
never address one path with two kinds.  `writeOk` is the oracle for whether
the underlying filesystem write raises (`OSError` from `to_csv` / `open`);
`serverless` models the `SERVERLESS_MODE` flag.  Cell rendering by pandas
`to_csv` of non-string values is abstracted by `pyStrOf`. -/

/-- Content of a CSV file: the header line and the data rows. -/
structure CsvFile where
  header : List String
  rows : List (List String)

/-- The local filesystem state. -/
structure Fs where
  csvFiles : List (String × CsvFile)
  jsonFiles : List (String × Dict)
  jsonlFiles : List (String × List Dict)

/-- The process-wide `_CSV_NAME_CACHE` (utils.py line 16): lowercase college
names per CSV path.  Sets are modelled as duplicate-free lists. -/
abbrev NameCache := List (String × List String)

/-- Bind `k` to `v`: replace the existing binding in place, else append. -/
def aset {α : Type} (l : List (String × α)) (k : String) (v : α) : List (String × α) :=
  if (l.find? (fun kv => kv.1 = k)).isSome then aupdate l k v else l ++ [(k, v)]

/-- `set.add`: insert if not already present. -/
def setAdd (s : List String) (x : String) : List String :=
  if x ∈ s then s else s ++ [x]

/-- `os.path.join(output_dir, filename)`. -/
def pathJoin (dir filename : String) : String := dir ++ "/" ++ filename

/-- `_read_college_names_from_csv` (utils.py lines 18-50) on the content of
an existing CSV file: find the `College Name` column; skip empty rows and
rows whose length differs from the header; collect non-blank names
lower-cased.  A file with no header yields the empty set. -/
def _read_college_names_from_csv (f : CsvFile) : List String :=
  if f.header.isEmpty then []
  else
    let normalized := f.header.map pyStrip
    if "College Name" ∈ normalized then
      let expected := normalized.length
      let idx := normalized.indexOf "College Name"
      f.rows.foldl (fun names row =>
        if row.isEmpty then names
        else if row.length ≠ expected then names
        else
          let name := pyStrip (row.getD idx "")
          if name ≠ "" then setAdd names (pyLower name) else names) []
    else []

/-- `_get_csv_name_cache` (utils.py lines 52-62): return the memoized name
set for the path, loading it from the file (empty when the file does not
exist) on first use. -/
def _get_csv_name_cache (fs : Fs) (cache : NameCache) (filepath : String) :
    NameCache × List String :=
  match alookup cache filepath with
  | some names => (cache, names)
  | none =>
    let names :=
      match alookup fs.csvFiles filepath with
      | some f => _read_college_names_from_csv f
      | none => []
    (cache ++ [(filepath, names)], names)

/-- One `df.to_csv(filepath, mode='a', header=not os.path.exists(filepath))`
call: create the file with a header row when absent, else append the row. -/
def csvAppendRow (fs : Fs) (path : String) (hdr row : List String) : Fs :=
  match alookup fs.csvFiles path with
  | some f => { fs with csvFiles := aupdate fs.csvFiles path ⟨f.header, f.rows ++ [row]⟩ }
  | none => { fs with csvFiles := fs.csvFiles ++ [(path, ⟨hdr, [row]⟩)] }

/-- `append_to_csv` (utils.py lines 631-663).  The serverless return comes
first; `os.makedirs` (line 641) sits *outside* the `try`, so a
directory-creation failure (`mkdirOk = false`) propagates uncaught as an
exception.  Inside the `try` (lines 644-663) everything that raises — a
non-string `College Name` value, or the file write itself
(`writeOk = false`) — is caught and reported as `False`. -/
def append_to_csv (serverless mkdirOk writeOk : Bool) (fs : Fs) (cache : NameCache)
    (data : Dict) (output_dir filename : String) :
    Except String (Fs × NameCache × Bool) :=
  if serverless then .ok (fs, cache, true)
  else if !mkdirOk then .error "OSError: makedirs failed"
  else
    let filepath := pathJoin output_dir filename
    match dictGet data "College Name" (.pstr "") with
    | .pstr s =>
      let new_name := pyLower (pyStrip s)
      if new_name ≠ "" then
        let (cache1, names) := _get_csv_name_cache fs cache filepath
        if new_name ∈ names then .ok (fs, cache1, true)
        else if !writeOk then .ok (fs, cache1, false)
        else
          let fs1 := csvAppendRow fs filepath (data.map (·.1))
            (data.map (fun kv => pyStrOf kv.2))
          .ok (fs1, aupdate cache1 filepath (setAdd names new_name), true)
      else
        if !writeOk then .ok (fs, cache, false)
        else
          .ok (csvAppendRow fs filepath (data.map (·.1))
            (data.map (fun kv => pyStrOf kv.2)), cache, true)
    | _ => .ok (fs, cache, false)

/-- `append_to_jsonl` (utils.py lines 666-689): pure O(1) append with no
duplicate check.  As in `append_to_csv`, `os.makedirs` (line 675) is outside
the `try`, so its failure propagates uncaught; a failure of the write inside
the `try` (lines 678-689) is caught and reported as `False`. -/
def append_to_jsonl (serverless mkdirOk writeOk : Bool) (fs : Fs) (data : Dict)
    (output_dir filename : String) : Except String (Fs × Bool) :=
  if serverless then .ok (fs, true)
  else if !mkdirOk then .error "OSError: makedirs failed"
  else if !writeOk then .ok (fs, false)
  else
    let filepath := pathJoin output_dir filename
    let lines := (alookup fs.jsonlFiles filepath).getD []
    .ok ({ fs with jsonlFiles := aset fs.jsonlFiles filepath (lines ++ [data]) }, true)

/-- Column set of a pandas `DataFrame(records)`: union of the records' keys
in first-seen order. -/
def unionKeys (records : List Dict) : List String :=
  records.foldl (fun acc r => acc ++ ((r.map (·.1)).filter (fun k => k ∉ acc))) []

/-- One rendered CSV data row of the snapshot: missing keys become empty
cells (pandas renders NaN as the empty string). -/
def renderRow (header : List String) (r : Dict) : List String :=
  header.map (fun k => match dictFind r k with | some v => pyStrOf v | none => "")

/-- `save_to_csv` (utils.py lines 463-485): whole-file snapshot write.  There
is no `try`/`except` here: an exception from `deduplicate_colleges` or from
the filesystem write propagates to the caller (`.error`).  Returns the file
path, or `none` when nothing was written. -/
def save_to_csv (serverless writeOk : Bool) (fs : Fs) (data : List Dict)
    (output_dir filename : String) : Except String (Fs × Option String) :=
  if serverless then .ok (fs, none)
  else if data.isEmpty then .ok (fs, none)
  else do
    let dd ← deduplicate_colleges data
    if !writeOk then Except.error "OSError: to_csv failed"
    else
      let filepath := pathJoin output_dir filename
      let hdr := unionKeys dd
      Except.ok ({ fs with csvFiles := aset fs.csvFiles filepath ⟨hdr, dd.map (renderRow hdr)⟩ },
                 some filepath)

/-- `save_to_json` (utils.py lines 488-558): dedupe, transform, wrap in the
`colleges` envelope, write the JSON document unless in serverless mode, and
optionally push the envelope to Supabase.  No `try`/`except`: pipeline or
write exceptions propagate.  Returns the path written (or `none`). -/
def save_to_json (serverless credsOk writeOk : Bool) (fs : Fs) (db : DB)
    (data : List Dict) (output_dir filename : String) (push_to_supabase : Bool)
    (career_path specialization location university job_id : Option String) :
    Except String (Fs × DB × List WriteOp × Option String) :=
  if data.isEmpty then .ok (fs, db, [], none)
  else do
    let dd ← deduplicate_colleges data
    let td ← transform_college_data dd
    let json_data : Dict := [("colleges", .plist (td.map .pdict))]
    let (fs1, filepath) ←
      if !serverless then
        if !writeOk then Except.error "OSError: open for write failed"
        else
          let fp := pathJoin output_dir filename
          Except.ok ({ fs with jsonFiles := aset fs.jsonFiles fp json_data }, some fp)
      else Except.ok (fs, (none : Option String))
    if push_to_supabase then
      let (db1, ops, _success, _msg) :=
        save_to_supabase credsOk db json_data career_path specialization location university job_id
      Except.ok (fs1, db1, ops, filepath)
    else
      Except.ok (fs1, db, [], filepath)

/-- `save_data` (utils.py lines 561-618): iterate the requested formats,
collecting `format → filepath` entries for the writes that produced a file.
Unknown formats are skipped; the result is a string-keyed map. -/
def save_data (serverless credsOk writeOk : Bool) (fs : Fs) (db : DB)
    (data : List Dict) (output_dir base_filename : String) (formats : List String)
    (push_to_supabase : Bool)
    (career_path specialization location university job_id : Option String) :
    Except String (Fs × DB × List WriteOp × List (String × String)) :=
  go formats fs db [] []
where
  go : List String → Fs → DB → List WriteOp → List (String × String) →
      Except String (Fs × DB × List WriteOp × List (String × String))
    | [], fsAcc, dbAcc, ops, saved => .ok (fsAcc, dbAcc, ops, saved)
    | fmt :: rest, fsAcc, dbAcc, ops, saved =>
      if pyLower fmt = "csv" then do
        let filename := if pyEndsWith base_filename ".csv" then base_filename
                        else base_filename ++ ".csv"
        let (fs1, fp) ← save_to_csv serverless writeOk fsAcc data output_dir filename
        let saved1 := match fp with | some p => aset saved "csv" p | none => saved
        go rest fs1 dbAcc ops saved1
      else if pyLower fmt = "json" then do
        let fn0 := if pyEndsWith base_filename ".json" then base_filename
                   else base_filename ++ ".json"
        let filename := pyReplace fn0 ".csv" ".json"
        let (fs1, db1, ops1, fp) ← save_to_json serverless credsOk writeOk fsAcc dbAcc
          data output_dir filename push_to_supabase
          career_path specialization location university job_id
        let saved1 := match fp with | some p => aset saved "json" p | none => saved
        go rest fs1 db1 (ops ++ ops1) saved1
      else go rest fsAcc dbAcc ops saved

/-! ## Helper lemmas -/

theorem _update_job_status_criteria (db : DB) (jid : Option String) (s : Bool)
    (m : String) : (_update_job_status db jid s m).1.search_criteria = db.search_criteria := by
  cases jid <;> rfl

theorem _update_job_status_nextId (db : DB) (jid : Option String) (s : Bool)
    (m : String) : (_update_job_status db jid s m).1.nextId = db.nextId := by
  cases jid <;> rfl

theorem _update_job_status_ops (db : DB) (jid : Option String) (s : Bool)
    (m : String) : (_update_job_status db jid s m).2 =
      (match jid with | none => [] | some j => [WriteOp.updateJob j]) := by
  cases jid <;> rfl

theorem insertNewRecord_criteria (db : DB) (rd : RecordData) (jid : Option String) :
    (insertNewRecord db rd jid).1.search_criteria = db.search_criteria ++
      [⟨db.nextId, rd.career_path, rd.specialization, rd.university, rd.location, rd.llm_json⟩] := by
  cases jid <;> rfl

theorem insertNewRecord_ops (db : DB) (rd : RecordData) (jid : Option String) :
    (insertNewRecord db rd jid).2.1 = WriteOp.insertCriteria db.nextId ::
      (match jid with | none => [] | some j => [WriteOp.updateJob j]) := by
  cases jid <;> rfl

theorem insertNewRecord_success (db : DB) (rd : RecordData) (jid : Option String) :
    (insertNewRecord db rd jid).2.2.1 = true := by
  cases jid <;> rfl

theorem insertNewRecord_msg (db : DB) (rd : RecordData) (jid : Option String) :
    (insertNewRecord db rd jid).2.2.2 =
      "Inserted new record in Supabase (ID: " ++ toString db.nextId ++ ")" := by
  cases jid <;> rfl

/-- When no row matches the filters, `save_to_supabase` takes the insert path. -/
theorem save_to_supabase_insert (db : DB) (json_data : Dict)
    (cp sp loc u jid : Option String)
    (hloc : pyStrip (loc.getD "") ≠ "")
    (hfind : db.search_criteria.find?
      (fun r => matchesCriteria (buildRecord json_data cp sp loc u) r) = none) :
    save_to_supabase true db json_data cp sp loc u jid =
      insertNewRecord db (buildRecord json_data cp sp loc u) jid := by
  simp [save_to_supabase, hloc, hfind]

/-- When a row matches and its id is non-zero, `save_to_supabase` updates. -/
theorem save_to_supabase_update (db : DB) (json_data : Dict)
    (cp sp loc u jid : Option String) (row : Row)
    (hloc : pyStrip (loc.getD "") ≠ "")
    (hfind : db.search_criteria.find?
      (fun r => matchesCriteria (buildRecord json_data cp sp loc u) r) = some row)
    (hid : row.id ≠ 0) :
    save_to_supabase true db json_data cp sp loc u jid =
      (let rd := buildRecord json_data cp sp loc u
       let newTable := db.search_criteria.map
         (fun r => if r.id = row.id then applyRecordData r rd else r)
       let msg := "Updated existing record in Supabase (ID: " ++ toString row.id ++ ")"
       let st := _update_job_status { db with search_criteria := newTable } jid true msg
       (st.1, WriteOp.updateCriteria row.id :: st.2, true, msg)) := by
  simp [save_to_supabase, hloc, hfind, hid]

/-- A successful `find?` splits the list at the first element satisfying the
predicate. -/
theorem find?_decomp {α : Type} (p : α → Bool) (l : List α) (a : α)
    (h : l.find? p = some a) :
    ∃ l1 l2, l = l1 ++ a :: l2 ∧ (∀ x ∈ l1, p x = false) ∧ p a = true := by
  induction l with
  | nil => simp at h
  | cons c rest ih =>
    rcases hp : p c with _ | _
    · simp only [List.find?_cons, hp] at h
      obtain ⟨l1, l2, heq, hall, hpa⟩ := ih h
      refine ⟨c :: l1, l2, by rw [heq, List.cons_append], ?_, hpa⟩
      intro x hx
      rcases List.mem_cons.mp hx with hx | hx
      · rw [hx]; exact hp
      · exact hall x hx
    · simp only [List.find?_cons, hp] at h
      obtain rfl : c = a := Option.some.inj h
      exact ⟨[], rest, rfl, by simp, hp⟩

/-- Mapping the id-guarded row replacement over a table whose ids are unique
rewrites exactly the distinguished row, in place. -/
theorem update_map_eq (l1 l2 : List Row) (row : Row) (rd : RecordData)
    (hids : ((l1 ++ row :: l2).map Row.id).Nodup) :
    (l1 ++ row :: l2).map (fun r => if r.id = row.id then applyRecordData r rd else r) =
      l1 ++ applyRecordData row rd :: l2 := by
  rw [List.map_append] at hids
  have hdis := (List.nodup_append.mp hids).2.2
  have hmid := (List.nodup_append.mp hids).2.1
  have h1 : ∀ x ∈ l1, x.id ≠ row.id := by
    intro x hx heq
    exact hdis (List.mem_map_of_mem Row.id hx) (by simp [heq])
  have h2 : ∀ x ∈ l2, x.id ≠ row.id := by
    intro x hx heq
    rw [List.map_cons, List.nodup_cons] at hmid
    exact hmid.1 (heq ▸ List.mem_map_of_mem Row.id hx)
  have e1 : ∀ l : List Row, (∀ x ∈ l, x.id ≠ row.id) →
      l.map (fun r => if r.id = row.id then applyRecordData r rd else r) = l := by
    intro l hl
    induction l with
    | nil => rfl
    | cons y ys ih =>
      simp only [List.map_cons, if_neg (hl y (by simp))]
      rw [ih (fun x hx => hl x (by simp [hx]))]
  rw [List.map_append, List.map_cons, if_pos rfl, e1 l1 h1, e1 l2 h2]

theorem alookup_append {α : Type} (l1 l2 : List (String × α)) (k : String) :
    alookup (l1 ++ l2) k = (alookup l1 k).or (alookup l2 k) := by
  unfold alookup
  rw [List.find?_append]
  cases l1.find? (fun kv => kv.1 = k) <;> simp

theorem alookup_cons_of_eq {α : Type} (p : String × α) (rest : List (String × α))
    (k : String) (h : p.1 = k) : alookup (p :: rest) k = some p.2 := by
  simp [alookup, List.find?_cons, h]

theorem alookup_cons_of_ne {α : Type} (p : String × α) (rest : List (String × α))
    (k : String) (h : ¬ p.1 = k) : alookup (p :: rest) k = alookup rest k := by
  simp [alookup, List.find?_cons, h]

theorem aupdate_cons_of_eq {α : Type} (p : String × α) (rest : List (String × α))
    (k : String) (v : α) (h : p.1 = k) :
    aupdate (p :: rest) k v = (k, v) :: aupdate rest k v := by
  simp [aupdate, h]

theorem aupdate_cons_of_ne {α : Type} (p : String × α) (rest : List (String × α))
    (k : String) (v : α) (h : ¬ p.1 = k) :
    aupdate (p :: rest) k v = p :: aupdate rest k v := by
  simp [aupdate, h]

theorem alookup_eq_none_iff {α : Type} (l : List (String × α)) (k : String) :
    alookup l k = none ↔ k ∉ l.map Prod.fst := by
  induction l with
  | nil => simp [alookup]
  | cons p rest ih =>
    by_cases hk : p.1 = k
    · rw [alookup_cons_of_eq p rest k hk]
      simp [← hk]
    · rw [alookup_cons_of_ne p rest k hk, ih]
      simp only [List.map_cons, List.mem_cons]
      constructor
      · intro h hmem
        rcases hmem with hmem | hmem
        · exact hk hmem.symm
        · exact h hmem
      · intro h hmem
        exact h (Or.inr hmem)

theorem alookup_aupdate_self {α : Type} (l : List (String × α)) (k : String)
    (v v0 : α) (h : alookup l k = some v0) : alookup (aupdate l k v) k = some v := by
  induction l with
  | nil => simp [alookup] at h
  | cons p rest ih =>
    by_cases hk : p.1 = k
    · rw [aupdate_cons_of_eq p rest k v hk]
      exact alookup_cons_of_eq (k, v) _ k rfl
    · rw [aupdate_cons_of_ne p rest k v hk, alookup_cons_of_ne p _ k hk]
      rw [alookup_cons_of_ne p rest k hk] at h
      exact ih h

theorem alookup_aupdate_ne {α : Type} (l : List (String × α)) (k q : String)
    (v : α) (hne : q ≠ k) : alookup (aupdate l k v) q = alookup l q := by
  induction l with
  | nil => rfl
  | cons p rest ih =>
    by_cases hk : p.1 = k
    · have hpq : ¬ p.1 = q := by rw [hk]; exact fun h => hne h.symm
      rw [aupdate_cons_of_eq p rest k v hk,
        alookup_cons_of_ne (k, v) _ q (fun h => hne h.symm),
        alookup_cons_of_ne p rest q hpq]
      exact ih
    · rw [aupdate_cons_of_ne p rest k v hk]
      by_cases hpq : p.1 = q
      · rw [alookup_cons_of_eq p _ q hpq, alookup_cons_of_eq p rest q hpq]
      · rw [alookup_cons_of_ne p _ q hpq, alookup_cons_of_ne p rest q hpq]
        exact ih

theorem aupdate_keys {α : Type} (l : List (String × α)) (k : String) (v : α) :
    (aupdate l k v).map Prod.fst = l.map Prod.fst := by
  induction l with
  | nil => rfl
  | cons p rest ih =>
    by_cases hk : p.1 = k
    · rw [aupdate_cons_of_eq p rest k v hk, List.map_cons, List.map_cons, ih, hk]
    · rw [aupdate_cons_of_ne p rest k v hk, List.map_cons, List.map_cons, ih]

theorem alookup_of_mem_nodup {α : Type} (l : List (String × α)) (k : String) (v : α)
    (hmem : (k, v) ∈ l) (hnd : (l.map Prod.fst).Nodup) : alookup l k = some v := by
  induction l with
  | nil => simp at hmem
  | cons p rest ih =>
    rw [List.map_cons, List.nodup_cons] at hnd
    rcases List.mem_cons.mp hmem with hmem | hmem
    · rw [← hmem]
      simp [alookup, List.find?_cons]
    · have hpk : ¬ p.1 = k := by
        intro h
        exact hnd.1 (h ▸ (List.mem_map_of_mem Prod.fst hmem))
      rw [alookup_cons_of_ne p rest k hpk]
      exact ih hmem hnd.2

theorem leftmostMax_append_single (l : List Dict) (c : Dict) :
    leftmostMax (l ++ [c]) = some (match leftmostMax l with
      | none => c
      | some m => pickRicher m c) := by
  cases l with
  | nil => rfl
  | cons x xs =>
    show leftmostMax (x :: (xs ++ [c])) = _
    simp [leftmostMax, List.foldl_append]

theorem groupFor_append_single (p : List Dict) (c : Dict) (k : String) :
    groupFor (p ++ [c]) k = groupFor p k ++
      (if keyOf c = some k then [c] else []) := by
  unfold groupFor
  rw [List.filter_append]
  congr 1
  by_cases h : keyOf c = some k <;> simp [h]

/-- Transport of the deduplication invariant across a record that changes no
group. -/
theorem inv_transport (processed : List Dict) (c : Dict) (seen : List (String × Dict))
    (hinv : ∀ k, (match alookup seen k with
      | some r => keyOf r = some k ∧ leftmostMax (groupFor processed k) = some r
      | none => groupFor processed k = []))
    (hgr : ∀ k, groupFor (processed ++ [c]) k = groupFor processed k) :
    ∀ k, (match alookup seen k with
      | some r => keyOf r = some k ∧ leftmostMax (groupFor (processed ++ [c]) k) = some r
      | none => groupFor (processed ++ [c]) k = []) := by
  intro k
  cases hsk : alookup seen k with
  | some r =>
    have h2 : keyOf r = some k ∧ leftmostMax (groupFor processed k) = some r := by
      have h3 := hinv k; rw [hsk] at h3; exact h3
    exact ⟨h2.1, (hgr k).symm ▸ h2.2⟩
  | none =>
    have h2 : groupFor processed k = [] := by
      have h3 := hinv k; rw [hsk] at h3; exact h3
    exact (hgr k).trans h2

/-- The running invariant of `dedupAux`: every key the loop has seen is bound
to the leftmost richest member of that key's group among the records
processed so far, and unseen keys have empty groups. -/
theorem dedupAux_invariant (rest : List Dict) :
    ∀ (processed : List Dict) (seen out : List (String × Dict)),
    (seen.map Prod.fst).Nodup →
    (∀ k, (match alookup seen k with
      | some r => keyOf r = some k ∧ leftmostMax (groupFor processed k) = some r
      | none => groupFor processed k = [])) →
    dedupAux rest seen = .ok out →
    (out.map Prod.fst).Nodup ∧
    (∀ k, (match alookup out k with
      | some r => keyOf r = some k ∧ leftmostMax (groupFor (processed ++ rest) k) = some r
      | none => groupFor (processed ++ rest) k = [])) := by
  induction rest with
  | nil =>
    intro processed seen out hnd hinv hrun
    have hseen : seen = out := by
      simpa [dedupAux] using hrun
    subst hseen
    simpa using ⟨hnd, hinv⟩
  | cons c rest ih =>
    intro processed seen out hnd hinv hrun
    rw [show processed ++ c :: rest = (processed ++ [c]) ++ rest by simp]
    simp only [dedupAux] at hrun
    cases hname : dedupName c with
    | error e =>
      rw [hname] at hrun
      have hrun0 : (Except.error e : Except String (List (String × Dict))) = .ok out := hrun
      exact absurd hrun0 (by simp)
    | ok name =>
      rw [hname] at hrun
      have hrun1 : (if name = "" then dedupAux rest seen
          else
            match alookup seen name with
            | none => dedupAux rest (seen ++ [(name, c)])
            | some existing =>
              if truthyCount c > truthyCount existing then
                dedupAux rest (aupdate seen name c)
              else
                dedupAux rest seen) = .ok out := hrun
      clear hrun
      by_cases hn : name = ""
      · rw [if_pos hn] at hrun1
        have hkeyc : keyOf c = none := by simp [keyOf, hname, hn]
        have hgr : ∀ k, groupFor (processed ++ [c]) k = groupFor processed k := by
          intro k; rw [groupFor_append_single]; simp [hkeyc]
        exact ih (processed ++ [c]) seen out hnd (inv_transport processed c seen hinv hgr) hrun1
      · rw [if_neg hn] at hrun1
        have hkeyc : keyOf c = some name := by simp [keyOf, hname, hn]
        cases halk : alookup seen name with
        | none =>
          rw [halk] at hrun1
          have hrun2 : dedupAux rest (seen ++ [(name, c)]) = .ok out := hrun1
          have hnotmem : name ∉ seen.map Prod.fst := (alookup_eq_none_iff seen name).mp halk
          have hnd' : ((seen ++ [(name, c)]).map Prod.fst).Nodup := by
            rw [List.map_append]
            refine List.nodup_append.mpr ⟨hnd, by simp, ?_⟩
            intro a ha hb
            simp only [List.map_cons, List.map_nil, List.mem_singleton] at hb
            exact hnotmem (hb ▸ ha)
          refine ih (processed ++ [c]) _ out hnd' ?_ hrun2
          intro k
          by_cases hk : k = name
          · subst hk
            have hlk : alookup (seen ++ [(k, c)]) k = some c := by
              rw [alookup_append, halk]
              simp [alookup]
            rw [hlk]
            have hgp : groupFor processed k = [] := by
              have h3 := hinv k; rw [halk] at h3; exact h3
            refine ⟨hkeyc, ?_⟩
            rw [groupFor_append_single, hgp, if_pos hkeyc]
            rfl
          · have hlk : alookup (seen ++ [(name, c)]) k = alookup seen k := by
              rw [alookup_append]
              have hsing : alookup [(name, c)] k = none := by
                have hne2 : ¬ name = k := fun h => hk h.symm
                simp [alookup, hne2]
              rw [hsing]
              cases alookup seen k <;> simp
            rw [hlk]
            have hgrk : groupFor (processed ++ [c]) k = groupFor processed k := by
              rw [groupFor_append_single]
              have : ¬ keyOf c = some k := by
                rw [hkeyc]; intro h; exact hk (Option.some.inj h).symm
              simp [this]
            cases hsk : alookup seen k with
            | some r =>
              have h2 : keyOf r = some k ∧ leftmostMax (groupFor processed k) = some r := by
                have h3 := hinv k; rw [hsk] at h3; exact h3
              exact ⟨h2.1, hgrk.symm ▸ h2.2⟩
            | none =>
              have h2 : groupFor processed k = [] := by
                have h3 := hinv k; rw [hsk] at h3; exact h3
              exact hgrk.trans h2
        | some existing =>
          rw [halk] at hrun1
          have hrun2 : (if truthyCount c > truthyCount existing then
              dedupAux rest (aupdate seen name c)
            else
              dedupAux rest seen) = .ok out := hrun1
          have hinvname : keyOf existing = some name ∧
              leftmostMax (groupFor processed name) = some existing := by
            have h3 := hinv name; rw [halk] at h3; exact h3
          by_cases hcmp : truthyCount c > truthyCount existing
          · rw [if_pos hcmp] at hrun2
            have hnd' : ((aupdate seen name c).map Prod.fst).Nodup := by
              rw [aupdate_keys]; exact hnd
            refine ih (processed ++ [c]) _ out hnd' ?_ hrun2
            intro k
            by_cases hk : k = name
            · subst hk
              rw [alookup_aupdate_self seen k c existing halk]
              refine ⟨hkeyc, ?_⟩
              rw [groupFor_append_single, if_pos hkeyc, leftmostMax_append_single,
                hinvname.2]
              simp [pickRicher, hcmp]
            · rw [alookup_aupdate_ne seen name k c hk]
              have hgrk : groupFor (processed ++ [c]) k = groupFor processed k := by
                rw [groupFor_append_single]
                have : ¬ keyOf c = some k := by
                  rw [hkeyc]; intro h; exact hk (Option.some.inj h).symm
                simp [this]
              cases hsk : alookup seen k with
              | some r =>
                have h2 : keyOf r = some k ∧ leftmostMax (groupFor processed k) = some r := by
                  have h3 := hinv k; rw [hsk] at h3; exact h3
                exact ⟨h2.1, hgrk.symm ▸ h2.2⟩
              | none =>
                have h2 : groupFor processed k = [] := by
                  have h3 := hinv k; rw [hsk] at h3; exact h3
                exact hgrk.trans h2
          · rw [if_neg hcmp] at hrun2
            refine ih (processed ++ [c]) seen out hnd ?_ hrun2
            intro k
            by_cases hk : k = name
            · subst hk
              rw [halk]
              refine ⟨hinvname.1, ?_⟩
              rw [groupFor_append_single, if_pos hkeyc, leftmostMax_append_single,
                hinvname.2]
              simp [pickRicher, hcmp]
            · have hgrk : groupFor (processed ++ [c]) k = groupFor processed k := by
                rw [groupFor_append_single]
                have : ¬ keyOf c = some k := by
                  rw [hkeyc]; intro h; exact hk (Option.some.inj h).symm
                simp [this]
              cases hsk : alookup seen k with
              | some r =>
                have h2 : keyOf r = some k ∧ leftmostMax (groupFor processed k) = some r := by
                  have h3 := hinv k; rw [hsk] at h3; exact h3
                exact ⟨h2.1, hgrk.symm ▸ h2.2⟩
              | none =>
                have h2 : groupFor processed k = [] := by
                  have h3 := hinv k; rw [hsk] at h3; exact h3
                exact hgrk.trans h2

theorem csvAppendRow_of_none (fs : Fs) (p : String) (hdr row : List String)
    (h : alookup fs.csvFiles p = none) :
    (csvAppendRow fs p hdr row).csvFiles = fs.csvFiles ++ [(p, ⟨hdr, [row]⟩)] := by
  unfold csvAppendRow
  rw [h]

theorem csvAppendRow_of_some (fs : Fs) (p : String) (hdr row : List String)
    (f : CsvFile) (h : alookup fs.csvFiles p = some f) :
    (csvAppendRow fs p hdr row).csvFiles =
      aupdate fs.csvFiles p ⟨f.header, f.rows ++ [row]⟩ := by
  unfold csvAppendRow
  rw [h]

theorem csvAppendRow_keeps_json (fs : Fs) (p : String) (hdr row : List String) :
    (csvAppendRow fs p hdr row).jsonFiles = fs.jsonFiles ∧
    (csvAppendRow fs p hdr row).jsonlFiles = fs.jsonlFiles := by
  unfold csvAppendRow
  cases alookup fs.csvFiles p <;> exact ⟨rfl, rfl⟩

/-! ## Theorems settling the claims -/

/-- Claim C1, counterexample to the claim as stated: with a *null* location
the reconciler does not insert at all — it fails fast — so saving a document
with `location="Delhi"` and then one with `location=None` yields one row and
a failure, not the two distinct rows the claim asserts. -/
theorem null_location_save_does_not_insert_second_row :
    (save_to_supabase true ⟨[], [], 1⟩ [] (some "Engineering") none (some "Delhi")
        none none).2.2.1 = true ∧
    (save_to_supabase true
        (save_to_supabase true ⟨[], [], 1⟩ [] (some "Engineering") none (some "Delhi")
          none none).1
        [] (some "Engineering") none none none none).2.2.1 = false ∧
    (save_to_supabase true
        (save_to_supabase true ⟨[], [], 1⟩ [] (some "Engineering") none (some "Delhi")
          none none).1
        [] (some "Engineering") none none none none).1.search_criteria.length = 1 := by
  exact ⟨rfl, rfl, rfl⟩

/-- Claim C1, amended: the null-matching property holds of the three optional
identity attributes.  A null filter matches only rows whose attribute is
itself null, so two reconcile calls agreeing on career path, specialization
and (valid, non-null) location but differing null-vs-non-null in university
can never match a common remote row; saving both inserts two distinct rows
and neither call issues an update.  (For the location attribute itself the
null side cannot arise: a null location fails fast and writes nothing.) -/
theorem null_filter_never_collides_optional_identity
    (db : DB) (d1 d2 : Dict) (cp sp loc : Option String) (u1 : String)
    (u2 jid1 jid2 : Option String) (w : String)
    (hloc : pyStrip (loc.getD "") ≠ "")
    (hu1 : _normalize_case (preStrip (some u1)) = some w)
    (hu2 : _normalize_case (preStrip u2) = none)
    (h1 : db.search_criteria.find?
      (fun r => matchesCriteria (buildRecord d1 cp sp loc (some u1)) r) = none)
    (h2 : db.search_criteria.find?
      (fun r => matchesCriteria (buildRecord d2 cp sp loc u2) r) = none) :
    (∀ r : Row, matchesCriteria (buildRecord d1 cp sp loc (some u1)) r = true →
      matchesCriteria (buildRecord d2 cp sp loc u2) r = false) ∧
    (save_to_supabase true db d1 cp sp loc (some u1) jid1).2.2.1 = true ∧
    (save_to_supabase true (save_to_supabase true db d1 cp sp loc (some u1) jid1).1
        d2 cp sp loc u2 jid2).2.2.1 = true ∧
    (save_to_supabase true (save_to_supabase true db d1 cp sp loc (some u1) jid1).1
        d2 cp sp loc u2 jid2).1.search_criteria.length
      = db.search_criteria.length + 2 ∧
    (∀ i, WriteOp.updateCriteria i ∉
      (save_to_supabase true db d1 cp sp loc (some u1) jid1).2.1) ∧
    (∀ i, WriteOp.updateCriteria i ∉
      (save_to_supabase true (save_to_supabase true db d1 cp sp loc (some u1) jid1).1
        d2 cp sp loc u2 jid2).2.1) := by
  have hdisj : ∀ r : Row, matchesCriteria (buildRecord d1 cp sp loc (some u1)) r = true →
      matchesCriteria (buildRecord d2 cp sp loc u2) r = false := by
    intro r hr
    simp only [matchesCriteria, buildRecord, Bool.and_eq_true, _apply_filter, hu1,
      decide_eq_true_eq] at hr
    simp [matchesCriteria, buildRecord, _apply_filter, hu2, hr.1.2]
  have hc1 := save_to_supabase_insert db d1 cp sp loc (some u1) jid1 hloc h1
  have hcrit1 := insertNewRecord_criteria db (buildRecord d1 cp sp loc (some u1)) jid1
  have hrow1univ : (buildRecord d1 cp sp loc (some u1)).university = some w := by
    simp [buildRecord, hu1]
  have hfind2 : (save_to_supabase true db d1 cp sp loc (some u1) jid1).1.search_criteria.find?
      (fun r => matchesCriteria (buildRecord d2 cp sp loc u2) r) = none := by
    rw [hc1, hcrit1, List.find?_append, h2]
    simp [matchesCriteria, buildRecord, _apply_filter, hu1, hu2]
  have hc2 := save_to_supabase_insert (save_to_supabase true db d1 cp sp loc (some u1) jid1).1
    d2 cp sp loc u2 jid2 hloc hfind2
  refine ⟨hdisj, ?_, ?_, ?_, ?_, ?_⟩
  · rw [hc1]; exact insertNewRecord_success _ _ _
  · rw [hc2]; exact insertNewRecord_success _ _ _
  · rw [hc2, insertNewRecord_criteria, hc1, hcrit1]
    simp
  · intro i
    rw [hc1, insertNewRecord_ops]
    cases jid1 <;> simp
  · intro i
    rw [hc2, insertNewRecord_ops]
    cases jid2 <;> simp

/-- Witness for `null_filter_never_collides_optional_identity`: an empty
store, career path `Engineering`, location `Delhi`, university `IIT` versus
university `None`. -/
theorem null_filter_never_collides_optional_identity_witness :
    (∀ r : Row, matchesCriteria (buildRecord [] (some "Engineering") none (some "Delhi")
        (some "IIT")) r = true →
      matchesCriteria (buildRecord [] (some "Engineering") none (some "Delhi") none) r = false) ∧
    (save_to_supabase true ⟨[], [], 1⟩ [] (some "Engineering") none (some "Delhi")
        (some "IIT") none).2.2.1 = true ∧
    (save_to_supabase true
        (save_to_supabase true ⟨[], [], 1⟩ [] (some "Engineering") none (some "Delhi")
          (some "IIT") none).1
        [] (some "Engineering") none (some "Delhi") none none).2.2.1 = true ∧
    (save_to_supabase true
        (save_to_supabase true ⟨[], [], 1⟩ [] (some "Engineering") none (some "Delhi")
          (some "IIT") none).1
        [] (some "Engineering") none (some "Delhi") none none).1.search_criteria.length
      = (⟨[], [], 1⟩ : DB).search_criteria.length + 2 ∧
    (∀ i, WriteOp.updateCriteria i ∉
      (save_to_supabase true ⟨[], [], 1⟩ [] (some "Engineering") none (some "Delhi")
        (some "IIT") none).2.1) ∧
    (∀ i, WriteOp.updateCriteria i ∉
      (save_to_supabase true
        (save_to_supabase true ⟨[], [], 1⟩ [] (some "Engineering") none (some "Delhi")
          (some "IIT") none).1
        [] (some "Engineering") none (some "Delhi") none none).2.1) := by
  exact null_filter_never_collides_optional_identity ⟨[], [], 1⟩ [] []
    (some "Engineering") none (some "Delhi") "IIT" none none none "IIT"
    (by decide) (by decide) (by decide) rfl rfl

/-- Claim C2: with valid credentials, a valid non-empty location, and a
well-formed store (unique, non-zero row ids), the reconciler either updates
— in place, with the new document and normalized identity values — the first
row (by retrieval order) matching all four case-normalized identity
attributes, or, when no row matches, appends a brand-new row carrying the
normalized identity values and the document.  Uniqueness of the identity
4-tuple is thus maintained by find-then-update-or-insert. -/
theorem reconciler_find_then_update_or_insert
    (db : DB) (json_data : Dict) (cp sp loc u jid : Option String)
    (hloc : pyStrip (loc.getD "") ≠ "")
    (hids : (db.search_criteria.map Row.id).Nodup)
    (hnz : ∀ r ∈ db.search_criteria, r.id ≠ 0) :
    (∀ row, db.search_criteria.find?
        (fun r => matchesCriteria (buildRecord json_data cp sp loc u) r) = some row →
      (save_to_supabase true db json_data cp sp loc u jid).2.2.1 = true ∧
      (save_to_supabase true db json_data cp sp loc u jid).2.2.2 =
        "Updated existing record in Supabase (ID: " ++ toString row.id ++ ")" ∧
      ∃ l1 l2, db.search_criteria = l1 ++ row :: l2 ∧
        (∀ x ∈ l1, matchesCriteria (buildRecord json_data cp sp loc u) x = false) ∧
        (save_to_supabase true db json_data cp sp loc u jid).1.search_criteria =
          l1 ++ applyRecordData row (buildRecord json_data cp sp loc u) :: l2) ∧
    (db.search_criteria.find?
        (fun r => matchesCriteria (buildRecord json_data cp sp loc u) r) = none →
      (save_to_supabase true db json_data cp sp loc u jid).2.2.1 = true ∧
      (save_to_supabase true db json_data cp sp loc u jid).1.search_criteria =
        db.search_criteria ++
          [⟨db.nextId, (buildRecord json_data cp sp loc u).career_path,
            (buildRecord json_data cp sp loc u).specialization,
            (buildRecord json_data cp sp loc u).university,
            (buildRecord json_data cp sp loc u).location, json_data⟩] ∧
      (save_to_supabase true db json_data cp sp loc u jid).2.2.2 =
        "Inserted new record in Supabase (ID: " ++ toString db.nextId ++ ")") := by
  constructor
  · intro row hfind
    have hid := hnz row (List.mem_of_find?_eq_some hfind)
    rw [save_to_supabase_update db json_data cp sp loc u jid row hloc hfind hid]
    obtain ⟨l1, l2, heq, hall, hpa⟩ := find?_decomp _ _ _ hfind
    refine ⟨rfl, rfl, l1, l2, heq, hall, ?_⟩
    show (_update_job_status _ jid true _).1.search_criteria = _
    rw [_update_job_status_criteria]
    show db.search_criteria.map _ = _
    rw [heq]
    exact update_map_eq l1 l2 row (buildRecord json_data cp sp loc u) (heq ▸ hids)
  · intro hfind
    rw [save_to_supabase_insert db json_data cp sp loc u jid hloc hfind]
    exact ⟨insertNewRecord_success _ _ _, insertNewRecord_criteria _ _ _,
      insertNewRecord_msg _ _ _⟩

/-- Witness for `reconciler_find_then_update_or_insert`: a store holding one
row with id 7 that matches the call's normalized identity (`engineering` →
`Engineering`, `delhi` → `Delhi`); the row is updated in place. -/
theorem reconciler_find_then_update_or_insert_witness :
    (∀ row, (⟨[⟨7, some "Engineering", none, none, some "Delhi", []⟩], [], 8⟩ :
        DB).search_criteria.find?
        (fun r => matchesCriteria (buildRecord [("k", PyVal.pstr "v")]
          (some "engineering") none (some "delhi") none) r) = some row →
      (save_to_supabase true ⟨[⟨7, some "Engineering", none, none, some "Delhi", []⟩], [], 8⟩
        [("k", PyVal.pstr "v")] (some "engineering") none (some "delhi") none none).2.2.1 = true ∧
      (save_to_supabase true ⟨[⟨7, some "Engineering", none, none, some "Delhi", []⟩], [], 8⟩
        [("k", PyVal.pstr "v")] (some "engineering") none (some "delhi") none none).2.2.2 =
        "Updated existing record in Supabase (ID: " ++ toString row.id ++ ")" ∧
      ∃ l1 l2, (⟨[⟨7, some "Engineering", none, none, some "Delhi", []⟩], [], 8⟩ :
          DB).search_criteria = l1 ++ row :: l2 ∧
        (∀ x ∈ l1, matchesCriteria (buildRecord [("k", PyVal.pstr "v")]
          (some "engineering") none (some "delhi") none) x = false) ∧
        (save_to_supabase true ⟨[⟨7, some "Engineering", none, none, some "Delhi", []⟩], [], 8⟩
          [("k", PyVal.pstr "v")] (some "engineering") none (some "delhi") none
          none).1.search_criteria =
          l1 ++ applyRecordData row (buildRecord [("k", PyVal.pstr "v")]
            (some "engineering") none (some "delhi") none) :: l2) ∧
    ((⟨[⟨7, some "Engineering", none, none, some "Delhi", []⟩], [], 8⟩ :
        DB).search_criteria.find?
        (fun r => matchesCriteria (buildRecord [("k", PyVal.pstr "v")]
          (some "engineering") none (some "delhi") none) r) = none →
      (save_to_supabase true ⟨[⟨7, some "Engineering", none, none, some "Delhi", []⟩], [], 8⟩
        [("k", PyVal.pstr "v")] (some "engineering") none (some "delhi") none none).2.2.1 = true ∧
      (save_to_supabase true ⟨[⟨7, some "Engineering", none, none, some "Delhi", []⟩], [], 8⟩
        [("k", PyVal.pstr "v")] (some "engineering") none (some "delhi") none
        none).1.search_criteria =
        (⟨[⟨7, some "Engineering", none, none, some "Delhi", []⟩], [], 8⟩ : DB).search_criteria ++
          [⟨(⟨[⟨7, some "Engineering", none, none, some "Delhi", []⟩], [], 8⟩ : DB).nextId,
            (buildRecord [("k", PyVal.pstr "v")] (some "engineering") none (some "delhi")
              none).career_path,
            (buildRecord [("k", PyVal.pstr "v")] (some "engineering") none (some "delhi")
              none).specialization,
            (buildRecord [("k", PyVal.pstr "v")] (some "engineering") none (some "delhi")
              none).university,
            (buildRecord [("k", PyVal.pstr "v")] (some "engineering") none (some "delhi")
              none).location, [("k", PyVal.pstr "v")]⟩] ∧
      (save_to_supabase true ⟨[⟨7, some "Engineering", none, none, some "Delhi", []⟩], [], 8⟩
        [("k", PyVal.pstr "v")] (some "engineering") none (some "delhi") none none).2.2.2 =
        "Inserted new record in Supabase (ID: " ++
          toString (⟨[⟨7, some "Engineering", none, none, some "Delhi", []⟩], [], 8⟩ :
            DB).nextId ++ ")") := by
  exact reconciler_find_then_update_or_insert
    ⟨[⟨7, some "Engineering", none, none, some "Delhi", []⟩], [], 8⟩
    [("k", PyVal.pstr "v")] (some "engineering") none (some "delhi") none none
    (by decide) (by decide) (by intro r hr; fin_cases hr; decide)

/-- Claim C3, counterexample to the claim as stated: calling the reconciler
with an empty location and a job handle present does issue a remote write
call — the job-status update against `scrape_jobs` — so the claim's "without
issuing any remote write call" is false on the code.  The call still fails
with the descriptive message and the failure is recorded on the job. -/
theorem missing_location_issues_job_status_write :
    (save_to_supabase true ⟨[], [⟨"job-1", none, none⟩], 1⟩ [] none none (some "")
        none (some "job-1")).2.1 = [WriteOp.updateJob "job-1"] ∧
    (save_to_supabase true ⟨[], [⟨"job-1", none, none⟩], 1⟩ [] none none (some "")
        none (some "job-1")).2.2.1 = false ∧
    (save_to_supabase true ⟨[], [⟨"job-1", none, none⟩], 1⟩ [] none none (some "")
        none (some "job-1")).1.scrape_jobs = [⟨"job-1", some false,
          some "Location is required to save data to Supabase."⟩] := by
  exact ⟨rfl, rfl, rfl⟩

/-- Claim C3, amended: a reconcile call whose location is `None`, empty or
whitespace-only fails immediately — it returns `False` with the descriptive
message, touches neither `search_criteria` (no data write, no insert) nor the
id counter, and the only remote write it can issue is the single best-effort
job-status update recording the failure when a job handle is present; with no
job handle it issues no remote write at all. -/
theorem missing_location_fails_fast (db : DB) (json_data : Dict)
    (career_path specialization location university job_id : Option String)
    (hloc : pyStrip (location.getD "") = "") :
    (save_to_supabase true db json_data career_path specialization location
        university job_id).2.2.1 = false ∧
    (save_to_supabase true db json_data career_path specialization location
        university job_id).2.2.2 = "Location is required to save data to Supabase." ∧
    (save_to_supabase true db json_data career_path specialization location
        university job_id).1.search_criteria = db.search_criteria ∧
    (save_to_supabase true db json_data career_path specialization location
        university job_id).1.nextId = db.nextId ∧
    (save_to_supabase true db json_data career_path specialization location
        university job_id).2.1 =
      (match job_id with | none => [] | some j => [WriteOp.updateJob j]) ∧
    (job_id = none →
      (save_to_supabase true db json_data career_path specialization location
          university job_id).1 = db) := by
  cases job_id <;>
    simp [save_to_supabase, hloc, _update_job_status]

/-- Witness for `missing_location_fails_fast` at a concrete input. -/
theorem missing_location_fails_fast_witness :
    (save_to_supabase true ⟨[], [], 5⟩ [] (some "Engineering") none (some "   ")
        none none).2.2.1 = false ∧
    (save_to_supabase true ⟨[], [], 5⟩ [] (some "Engineering") none (some "   ")
        none none).2.2.2 = "Location is required to save data to Supabase." ∧
    (save_to_supabase true ⟨[], [], 5⟩ [] (some "Engineering") none (some "   ")
        none none).1.search_criteria = ([] : List Row) ∧
    (save_to_supabase true ⟨[], [], 5⟩ [] (some "Engineering") none (some "   ")
        none none).1.nextId = 5 ∧
    (save_to_supabase true ⟨[], [], 5⟩ [] (some "Engineering") none (some "   ")
        none none).2.1 = ([] : List WriteOp) ∧
    ((none : Option String) = none →
      (save_to_supabase true ⟨[], [], 5⟩ [] (some "Engineering") none (some "   ")
          none none).1 = ⟨[], [], 5⟩) := by
  exact missing_location_fails_fast ⟨[], [], 5⟩ [] (some "Engineering") none
    (some "   ") none none (by decide)

theorem transformCourses_go_ok (l : List PyVal)
    (hal : l.all (fun c => match c with | .pdict _ => true | _ => false) = true) :
    ∃ cs, transformCourses.go l = .ok cs := by
  induction l with
  | nil => exact ⟨[], rfl⟩
  | cons c rest ih =>
    rw [List.all_cons, Bool.and_eq_true] at hal
    obtain ⟨cs, hcs⟩ := ih hal.2
    cases c with
    | pdict d =>
      refine ⟨transformCourse d :: cs, ?_⟩
      show (transformCourses.go rest).bind (fun r => Except.ok (transformCourse d :: r)) = _
      rw [hcs]
      rfl
    | pnone => exact absurd hal.1 (by simp)
    | pstr s => exact absurd hal.1 (by simp)
    | pint n => exact absurd hal.1 (by simp)
    | plist l2 => exact absurd hal.1 (by simp)

theorem transform_college_data_singleton (c : Dict) (t : Dict)
    (h : transformCollege c = .ok t) : transform_college_data [c] = .ok [t] := by
  show (transformCollege c).bind _ = _
  rw [h]
  rfl

/-- Claim C4, counterexample to the claim as stated: the transformer reads
the legacy key `College Name`, not `name`, so the record `{"name":"ABC"}`
transforms to a record whose `name` is the empty string, not `"ABC"`. -/
theorem transform_ignores_normalized_name_key :
    transform_college_data [[("name", PyVal.pstr "ABC")]] =
      .ok [[("city", PyVal.pstr ""), ("name", PyVal.pstr ""), ("type", PyVal.pstr ""),
            ("course_category", PyVal.pstr ""), ("total_courses", PyVal.pstr ""),
            ("match_percentage", PyVal.pstr ""), ("match_level", PyVal.pstr ""),
            ("has_website_link", PyVal.pstr ""), ("college_id", PyVal.pstr ""),
            ("courses", PyVal.plist [])]] ∧
    PyVal.pstr "" ≠ PyVal.pstr "ABC" := by
  exact ⟨rfl, by simp⟩

/-- Claim C4, amended: the transformer is pure and total on well-typed
records, and every output record carries exactly the fixed field set with
empty-string defaults for every missing scalar field and the empty list for
missing courses; the `name` output is fed from the legacy `College Name` key
(so `{"name":"ABC"}` yields `name` `""`, while `{"College Name":"ABC"}`
yields `name` `"ABC"`). -/
theorem transform_total_fixed_fields (college : Dict)
    (hLoc : locationOk college = true) (hCrs : coursesOk college = true) :
    ∃ t, transform_college_data [college] = .ok [t] ∧
      t.map (·.1) = ["city", "name", "type", "course_category", "total_courses",
        "match_percentage", "match_level", "has_website_link", "college_id", "courses"] ∧
      (∀ ok lk, (ok, lk) ∈ scalarFieldMap → dictFind college lk = none →
        dictFind t ok = some (PyVal.pstr "")) ∧
      (dictFind college "Courses" = none → dictFind t "courses" = some (PyVal.plist [])) ∧
      (∀ s, dictFind college "College Name" = some (PyVal.pstr s) →
        dictFind t "name" = some (PyVal.pstr s)) := by
  obtain ⟨locs, hl⟩ : ∃ s, getLocationStr college = .ok s := by
    unfold locationOk at hLoc
    cases hfind : dictFind college "Location" with
    | none =>
      refine ⟨"", ?_⟩
      unfold getLocationStr
      have hget : dictGet college "Location" (.pstr "") = .pstr "" := by
        simp [dictGet, hfind]
      rw [hget]
      rfl
    | some v =>
      rw [hfind] at hLoc
      cases v with
      | pstr s =>
        refine ⟨pyStrip s, ?_⟩
        unfold getLocationStr
        have hget : dictGet college "Location" (.pstr "") = .pstr s := by
          simp [dictGet, hfind]
        rw [hget]
      | pnone => simp at hLoc
      | pint n => simp at hLoc
      | plist l => simp at hLoc
      | pdict d => simp at hLoc
  obtain ⟨cs, hc⟩ : ∃ cs, transformCourses (dictGet college "Courses" (.plist [])) = .ok cs := by
    unfold coursesOk at hCrs
    cases hfind : dictFind college "Courses" with
    | none =>
      refine ⟨[], ?_⟩
      have hget : dictGet college "Courses" (.plist []) = .plist [] := by
        simp [dictGet, hfind]
      rw [hget]
      rfl
    | some v =>
      rw [hfind] at hCrs
      cases v with
      | plist l =>
        obtain ⟨cs, hcs⟩ := transformCourses_go_ok l hCrs
        refine ⟨cs, ?_⟩
        have hget : dictGet college "Courses" (.plist []) = .plist l := by
          simp [dictGet, hfind]
        rw [hget]
        exact hcs
      | pnone => simp at hCrs
      | pint n => simp at hCrs
      | pstr s => simp at hCrs
      | pdict d => simp at hCrs
  have htc : transformCollege college = .ok
      [("city", .pstr (if locs ≠ "" then
          pyStrip ((pySplitChar ',' locs).headD "") else "")),
       ("name", dictGet college "College Name" (.pstr "")),
       ("type", dictGet college "College Type" (.pstr "")),
       ("course_category", dictGet college "Course Category" (.pstr "")),
       ("total_courses", dictGet college "Total Courses" (.pstr "")),
       ("match_percentage", dictGet college "Match Percentage" (.pstr "")),
       ("match_level", dictGet college "Match Level" (.pstr "")),
       ("has_website_link", dictGet college "Has Website Link" (.pstr "")),
       ("college_id", dictGet college "College ID" (.pstr "")),
       ("courses", .plist (cs.map .pdict))] := by
    show (getLocationStr college).bind _ = _
    rw [hl]
    show (transformCourses (dictGet college "Courses" (PyVal.plist []))).bind _ = _
    rw [hc]
    rfl
  refine ⟨_, transform_college_data_singleton college _ htc, rfl, ?_, ?_, ?_⟩
  · intro ok lk hmem hmiss
    simp only [scalarFieldMap, List.mem_cons, List.mem_singleton, Prod.mk.injEq,
      List.not_mem_nil, or_false] at hmem
    have hdef : dictGet college lk (.pstr "") = .pstr "" := by
      simp [dictGet, hmiss]
    rcases hmem with hkk | hkk | hkk | hkk | hkk | hkk | hkk | hkk | hkk
    · obtain ⟨rfl, rfl⟩ := hkk
      have h0 : getLocationStr college = .ok "" := by
        unfold getLocationStr
        rw [hdef]
        rfl
      have h1 := h0.symm.trans hl
      have hlocs : locs = "" := by
        injection h1 with h2
        exact h2.symm
      simp [dictFind, hlocs]
    all_goals obtain ⟨rfl, rfl⟩ := hkk
    all_goals simp [dictFind, hdef]
  · intro hmiss
    have hdef : dictGet college "Courses" (.plist []) = .plist [] := by
      simp [dictGet, hmiss]
    rw [hdef] at hc
    have h2 : (Except.ok ([] : List Dict) : Except String (List Dict)) = Except.ok cs := hc
    have hcs : ([] : List Dict) = cs := by injection h2
    simp [dictFind, ← hcs]
  · intro s hname
    have hdef : dictGet college "College Name" (.pstr "") = .pstr s := by
      simp [dictGet, hname]
    simp [dictFind, hdef]

/-- Claim C5: in every deduplication run that completes, each surviving
record is, within its normalized-name group taken in encounter order, the
leftmost record attaining the maximal count of truthy (non-null,
non-blank-after-trim) attribute values — so a strictly richer record
displaces the incumbent and an exact tie keeps the earlier-seen one. -/
theorem dedup_survivor_leftmost_richest (colleges out : List Dict)
    (h : deduplicate_colleges colleges = .ok out) :
    ∀ r ∈ out, ∃ k, keyOf r = some k ∧
      leftmostMax (groupFor colleges k) = some r := by
  unfold deduplicate_colleges at h
  cases hrun : dedupAux colleges [] with
  | error e =>
    rw [hrun] at h
    have h0 : (Except.error e : Except String (List Dict)) = .ok out := h
    exact absurd h0 (by simp)
  | ok seenF =>
    rw [hrun] at h
    have h2 : (Except.ok (seenF.map (·.2)) : Except String (List Dict)) = .ok out := h
    have hout : out = seenF.map (·.2) := by
      injection h2 with h3
      exact h3.symm
    have hbase : (([] : List (String × Dict)).map Prod.fst).Nodup := by simp
    have hbinv : ∀ k, (match alookup ([] : List (String × Dict)) k with
        | some r => keyOf r = some k ∧ leftmostMax (groupFor ([] : List Dict) k) = some r
        | none => groupFor ([] : List Dict) k = []) := fun k => rfl
    obtain ⟨hndF, hinvF⟩ := dedupAux_invariant colleges [] [] seenF hbase hbinv hrun
    intro r hr
    rw [hout] at hr
    obtain ⟨p, hpmem, hpr⟩ := List.mem_map.mp hr
    have hlook : alookup seenF p.1 = some p.2 :=
      alookup_of_mem_nodup seenF p.1 p.2 hpmem hndF
    have h3 := hinvF p.1
    rw [hlook] at h3
    have h4 : keyOf p.2 = some p.1 ∧
        leftmostMax (groupFor ([] ++ colleges) p.1) = some p.2 := h3
    rw [List.nil_append] at h4
    exact ⟨p.1, hpr ▸ h4.1, hpr ▸ h4.2⟩

/-- Witness for `dedup_survivor_leftmost_richest` at the spec's literal pair:
deduplicating `{"name":"X","type":"Govt"}` (richness 2) against `{"name":"x"}`
(richness 1) keeps the first record. -/
theorem dedup_survivor_leftmost_richest_witness :
    ∃ k, keyOf [("name", PyVal.pstr "X"), ("type", PyVal.pstr "Govt")] = some k ∧
      leftmostMax (groupFor [[("name", PyVal.pstr "X"), ("type", PyVal.pstr "Govt")],
        [("name", PyVal.pstr "x")]] k) =
        some [("name", PyVal.pstr "X"), ("type", PyVal.pstr "Govt")] := by
  exact dedup_survivor_leftmost_richest
    [[("name", PyVal.pstr "X"), ("type", PyVal.pstr "Govt")], [("name", PyVal.pstr "x")]]
    [[("name", PyVal.pstr "X"), ("type", PyVal.pstr "Govt")]] rfl
    [("name", PyVal.pstr "X"), ("type", PyVal.pstr "Govt")] (by simp)

/-- Witness for `transform_total_fixed_fields` at `{"College Name":"ABC"}`. -/
theorem transform_total_fixed_fields_witness :
    ∃ t, transform_college_data [[("College Name", PyVal.pstr "ABC")]] = .ok [t] ∧
      t.map (·.1) = ["city", "name", "type", "course_category", "total_courses",
        "match_percentage", "match_level", "has_website_link", "college_id", "courses"] ∧
      (∀ ok lk, (ok, lk) ∈ scalarFieldMap →
        dictFind [("College Name", PyVal.pstr "ABC")] lk = none →
        dictFind t ok = some (PyVal.pstr "")) ∧
      (dictFind [("College Name", PyVal.pstr "ABC")] "Courses" = none →
        dictFind t "courses" = some (PyVal.plist [])) ∧
      (∀ s, dictFind [("College Name", PyVal.pstr "ABC")] "College Name" =
          some (PyVal.pstr s) →
        dictFind t "name" = some (PyVal.pstr s)) := by
  exact transform_total_fixed_fields [("College Name", PyVal.pstr "ABC")]
    (by decide) (by decide)

/-- Claim C6: outside read-only mode, appending a record with a non-empty
`College Name` to a fresh delimited sink is idempotent — the first call
creates the file with exactly one data row and succeeds, and the second call
with the same identity hits the per-path name cache, performs no write at
all (filesystem and cache both unchanged) and still returns success. -/
theorem append_to_csv_idempotent (fs : Fs) (cache : NameCache) (data : Dict)
    (output_dir filename : String) (s : String)
    (hname : dictGet data "College Name" (.pstr "") = .pstr s)
    (hnm : pyLower (pyStrip s) ≠ "")
    (hfile : alookup fs.csvFiles (pathJoin output_dir filename) = none)
    (hcache : alookup cache (pathJoin output_dir filename) = none) :
    ∃ fs1 cache1,
      append_to_csv false true true fs cache data output_dir filename =
        .ok (fs1, cache1, true) ∧
      append_to_csv false true true fs1 cache1 data output_dir filename =
        .ok (fs1, cache1, true) ∧
      alookup fs1.csvFiles (pathJoin output_dir filename) =
        some ⟨data.map (·.1), [data.map (fun kv => pyStrOf kv.2)]⟩ := by
  refine ⟨{ fs with csvFiles := fs.csvFiles ++ [(pathJoin output_dir filename,
      ⟨data.map (·.1), [data.map (fun kv => pyStrOf kv.2)]⟩)] },
    aupdate (cache ++ [(pathJoin output_dir filename, [])])
      (pathJoin output_dir filename) [pyLower (pyStrip s)], ?_, ?_, ?_⟩
  · simp [append_to_csv, hname, hnm, _get_csv_name_cache, hcache, hfile,
      csvAppendRow, setAdd]
  · have hlk2 : alookup (aupdate (cache ++ [(pathJoin output_dir filename, [])])
        (pathJoin output_dir filename) [pyLower (pyStrip s)])
        (pathJoin output_dir filename) = some [pyLower (pyStrip s)] := by
      refine alookup_aupdate_self _ _ _ ([] : List String) ?_
      rw [alookup_append, hcache]
      simp [alookup]
    simp [append_to_csv, hname, hnm, _get_csv_name_cache, hlk2]
  · rw [alookup_append, hfile]
    simp [alookup]

/-- Witness for `append_to_csv_idempotent` at a concrete record and a fresh
filesystem/cache. -/
theorem append_to_csv_idempotent_witness :
    ∃ fs1 cache1,
      append_to_csv false true true ⟨[], [], []⟩ []
        [("College Name", PyVal.pstr "Alpha College")] "out" "c.csv" =
        .ok (fs1, cache1, true) ∧
      append_to_csv false true true fs1 cache1
        [("College Name", PyVal.pstr "Alpha College")] "out" "c.csv" =
        .ok (fs1, cache1, true) ∧
      alookup fs1.csvFiles (pathJoin "out" "c.csv") =
        some ⟨[("College Name", PyVal.pstr "Alpha College")].map (·.1),
          [[("College Name", PyVal.pstr "Alpha College")].map (fun kv => pyStrOf kv.2)]⟩ := by
  exact append_to_csv_idempotent ⟨[], [], []⟩ []
    [("College Name", PyVal.pstr "Alpha College")] "out" "c.csv" "Alpha College"
    rfl (by decide) rfl rfl

/-- Claim C10: a record whose `College Name` is missing, empty or
whitespace-only bypasses the duplicate check entirely — each call appends a
data row unconditionally, the name cache is never consulted nor modified,
and two successive calls leave two copies of the row in the file. -/
theorem nameless_record_bypasses_dedup_check (fs : Fs) (cache : NameCache)
    (data : Dict) (output_dir filename : String) (s : String)
    (hname : dictGet data "College Name" (.pstr "") = .pstr s)
    (hs : pyLower (pyStrip s) = "") :
    append_to_csv false true true fs cache data output_dir filename =
      .ok (csvAppendRow fs (pathJoin output_dir filename) (data.map (·.1))
        (data.map (fun kv => pyStrOf kv.2)), cache, true) ∧
    (alookup fs.csvFiles (pathJoin output_dir filename) = none →
      ∃ fs2, append_to_csv false true true
          (csvAppendRow fs (pathJoin output_dir filename) (data.map (·.1))
            (data.map (fun kv => pyStrOf kv.2))) cache data output_dir filename =
          .ok (fs2, cache, true) ∧
        alookup fs2.csvFiles (pathJoin output_dir filename) =
          some ⟨data.map (·.1), [data.map (fun kv => pyStrOf kv.2),
            data.map (fun kv => pyStrOf kv.2)]⟩) := by
  have hstep : ∀ fs' cache',
      append_to_csv false true true fs' cache' data output_dir filename =
      .ok (csvAppendRow fs' (pathJoin output_dir filename) (data.map (·.1))
        (data.map (fun kv => pyStrOf kv.2)), cache', true) := by
    intro fs' cache'
    simp [append_to_csv, hname, hs]
  refine ⟨hstep fs cache, ?_⟩
  intro hnone
  refine ⟨csvAppendRow (csvAppendRow fs (pathJoin output_dir filename)
      (data.map (·.1)) (data.map (fun kv => pyStrOf kv.2)))
      (pathJoin output_dir filename) (data.map (·.1))
      (data.map (fun kv => pyStrOf kv.2)), hstep _ cache, ?_⟩
  have hmid : alookup (csvAppendRow fs (pathJoin output_dir filename) (data.map (·.1))
      (data.map (fun kv => pyStrOf kv.2))).csvFiles (pathJoin output_dir filename) =
      some ⟨data.map (·.1), [data.map (fun kv => pyStrOf kv.2)]⟩ := by
    rw [csvAppendRow_of_none fs _ _ _ hnone, alookup_append, hnone]
    simp [alookup]
  rw [csvAppendRow_of_some _ _ _ _ _ hmid]
  exact alookup_aupdate_self _ _ _ _ hmid

/-- Witness for `nameless_record_bypasses_dedup_check` at a record with no
`College Name` at all. -/
theorem nameless_record_bypasses_dedup_check_witness :
    append_to_csv false true true ⟨[], [], []⟩ []
      [("Location", PyVal.pstr "Delhi")] "out" "c.csv" =
      .ok (csvAppendRow ⟨[], [], []⟩ (pathJoin "out" "c.csv")
        ([("Location", PyVal.pstr "Delhi")].map (·.1))
        ([("Location", PyVal.pstr "Delhi")].map (fun kv => pyStrOf kv.2)), [], true) ∧
    (alookup (⟨[], [], []⟩ : Fs).csvFiles (pathJoin "out" "c.csv") = none →
      ∃ fs2, append_to_csv false true true
          (csvAppendRow ⟨[], [], []⟩ (pathJoin "out" "c.csv")
            ([("Location", PyVal.pstr "Delhi")].map (·.1))
            ([("Location", PyVal.pstr "Delhi")].map (fun kv => pyStrOf kv.2))) []
          [("Location", PyVal.pstr "Delhi")] "out" "c.csv" =
          .ok (fs2, [], true) ∧
        alookup fs2.csvFiles (pathJoin "out" "c.csv") =
          some ⟨[("Location", PyVal.pstr "Delhi")].map (·.1),
            [[("Location", PyVal.pstr "Delhi")].map (fun kv => pyStrOf kv.2),
             [("Location", PyVal.pstr "Delhi")].map (fun kv => pyStrOf kv.2)]⟩) := by
  exact nameless_record_bypasses_dedup_check ⟨[], [], []⟩ []
    [("Location", PyVal.pstr "Delhi")] "out" "c.csv" "" rfl rfl

/-- Claim C7: under the read-only-filesystem flag every local-write
operation is a no-op on the filesystem that reports success: the CSV
snapshot write and the JSON document write return without error and with no
path (their success sentinel for "nothing written"), the delimited and JSONL
append sinks return `True`, and none of them changes any file. -/
theorem serverless_writes_are_noops :
    (∀ (writeOk : Bool) (fs : Fs) (data : List Dict) (dir fn : String),
      save_to_csv true writeOk fs data dir fn = .ok (fs, none)) ∧
    (∀ (mkdirOk writeOk : Bool) (fs : Fs) (cache : NameCache) (data : Dict)
      (dir fn : String),
      append_to_csv true mkdirOk writeOk fs cache data dir fn = .ok (fs, cache, true)) ∧
    (∀ (mkdirOk writeOk : Bool) (fs : Fs) (data : Dict) (dir fn : String),
      append_to_jsonl true mkdirOk writeOk fs data dir fn = .ok (fs, true)) ∧
    (∀ (credsOk writeOk : Bool) (fs : Fs) (db : DB) (data : List Dict)
      (dir fn : String) (push : Bool) (cp sp loc u jid : Option String)
      (res : Fs × DB × List WriteOp × Option String),
      save_to_json true credsOk writeOk fs db data dir fn push cp sp loc u jid = .ok res →
      res.1 = fs ∧ res.2.2.2 = none) := by
  refine ⟨fun _ _ _ _ _ => rfl, fun _ _ _ _ _ _ _ => rfl, fun _ _ _ _ _ _ => rfl, ?_⟩
  intro credsOk writeOk fs db data dir fn push cp sp loc u jid res h
  unfold save_to_json at h
  by_cases hd : data.isEmpty
  · rw [if_pos hd] at h
    have h2 : res = (fs, db, [], none) := by
      injection h with h3
      exact h3.symm
    rw [h2]
    exact ⟨rfl, rfl⟩
  · rw [if_neg hd] at h
    cases hdd : deduplicate_colleges data with
    | error e =>
      rw [hdd] at h
      exact absurd (show (Except.error e : Except String _) = .ok res from h) (by simp)
    | ok dd =>
      rw [hdd] at h
      have h2 : (transform_college_data dd).bind (fun td =>
          (if push then
            Except.ok (fs, (save_to_supabase credsOk db
              [("colleges", PyVal.plist (td.map PyVal.pdict))] cp sp loc u jid).1,
              (save_to_supabase credsOk db
                [("colleges", PyVal.plist (td.map PyVal.pdict))] cp sp loc u jid).2.1,
              (none : Option String))
          else Except.ok (fs, db, [], none))) = .ok res := h
      cases htd : transform_college_data dd with
      | error e =>
        rw [htd] at h2
        exact absurd (show (Except.error e : Except String _) = .ok res from h2) (by simp)
      | ok td =>
        rw [htd] at h2
        have h3 : (if push then
            Except.ok (fs, (save_to_supabase credsOk db
              [("colleges", PyVal.plist (td.map PyVal.pdict))] cp sp loc u jid).1,
              (save_to_supabase credsOk db
                [("colleges", PyVal.plist (td.map PyVal.pdict))] cp sp loc u jid).2.1,
              (none : Option String))
          else Except.ok (fs, db, [], none)) = .ok res := h2
        by_cases hp : push
        · rw [if_pos hp] at h3
          injection h3 with h4
          rw [← h4]
          exact ⟨rfl, rfl⟩
        · rw [if_neg hp] at h3
          injection h3 with h4
          rw [← h4]
          exact ⟨rfl, rfl⟩

/-- Witness for `serverless_writes_are_noops` at concrete inputs. -/
theorem serverless_writes_are_noops_witness :
    save_to_csv true true ⟨[], [], []⟩ [] "out" "f.csv" = .ok (⟨[], [], []⟩, none) ∧
    (((⟨[], [], []⟩ : Fs), (⟨[], [], 1⟩ : DB), ([] : List WriteOp),
        (none : Option String)).1 = ⟨[], [], []⟩ ∧
      ((⟨[], [], []⟩ : Fs), (⟨[], [], 1⟩ : DB), ([] : List WriteOp),
        (none : Option String)).2.2.2 = none) := by
  refine ⟨serverless_writes_are_noops.1 true ⟨[], [], []⟩ [] "out" "f.csv", ?_⟩
  exact serverless_writes_are_noops.2.2.2 true true ⟨[], [], []⟩ ⟨[], [], 1⟩ []
    "out" "f.json" false none none none none none
    (⟨[], [], []⟩, ⟨[], [], 1⟩, [], none) rfl

/-- Claim C8, counterexample to the claim as stated: the CSV snapshot writer
has no `try`/`except` — a local I/O failure during `to_csv` propagates out of
`save_to_csv` as an exception instead of a `False`-plus-message sentinel, so
not every public entry point of the persistence core returns a flag rather
than throwing. -/
theorem save_to_csv_propagates_io_failure :
    save_to_csv false false ⟨[], [], []⟩ [[("College Name", PyVal.pstr "A")]]
      "out" "data.csv" = .error "OSError: to_csv failed" := by
  rfl

/-- Claim C8, amended: the no-throw contract holds only inside the append
sinks' `try` blocks — a failing file write there, including on the
named-uncached CSV append path, is caught and reported as a `False` sentinel
with no file mutated — but `os.makedirs` sits outside the `try` in both
append sinks, so a directory-creation I/O failure propagates uncaught out of
them, and `save_to_csv` / `save_to_json` have no `try` at all: their local
I/O failures propagate as exceptions and they return a path-or-nothing
rather than a flag-plus-message. -/
theorem local_io_failure_boundaries :
    (∀ (fs : Fs) (cache : NameCache) (data : Dict) (dir fn : String) (s : String),
      dictGet data "College Name" (.pstr "") = .pstr s →
      pyLower (pyStrip s) ≠ "" →
      pyLower (pyStrip s) ∉ (_get_csv_name_cache fs cache (pathJoin dir fn)).2 →
      append_to_csv false true false fs cache data dir fn =
        .ok (fs, (_get_csv_name_cache fs cache (pathJoin dir fn)).1, false)) ∧
    (∀ (fs : Fs) (cache : NameCache) (data : Dict) (dir fn : String) (s : String),
      dictGet data "College Name" (.pstr "") = .pstr s →
      pyLower (pyStrip s) = "" →
      append_to_csv false true false fs cache data dir fn = .ok (fs, cache, false)) ∧
    (∀ (fs : Fs) (data : Dict) (dir fn : String),
      append_to_jsonl false true false fs data dir fn = .ok (fs, false)) ∧
    (∀ (writeOk : Bool) (fs : Fs) (cache : NameCache) (data : Dict) (dir fn : String),
      append_to_csv false false writeOk fs cache data dir fn =
        .error "OSError: makedirs failed") ∧
    (∀ (writeOk : Bool) (fs : Fs) (data : Dict) (dir fn : String),
      append_to_jsonl false false writeOk fs data dir fn =
        .error "OSError: makedirs failed") ∧
    (∀ (fs : Fs) (data : List Dict) (dir fn : String) (dd : List Dict),
      data.isEmpty = false →
      deduplicate_colleges data = .ok dd →
      save_to_csv false false fs data dir fn = .error "OSError: to_csv failed") := by
  refine ⟨?_, ?_, fun _ _ _ _ => rfl, fun _ _ _ _ _ _ => rfl, fun _ _ _ _ _ => rfl, ?_⟩
  · intro fs cache data dir fn s hname hnm hmem
    rcases hgc : _get_csv_name_cache fs cache (pathJoin dir fn) with ⟨c1, ns⟩
    rw [hgc] at hmem
    simp [append_to_csv, hname, hnm, hgc, hmem]
  · intro fs cache data dir fn s hname hs
    simp [append_to_csv, hname, hs]
  · intro fs data dir fn dd hne hdd
    unfold save_to_csv
    rw [if_neg (by simp : ¬ (false : Bool) = true), if_neg (by simp [hne])]
    show (deduplicate_colleges data).bind _ = _
    rw [hdd]
    rfl

/-- Witness for `local_io_failure_boundaries` at concrete inputs: a failing
write on the named-uncached CSV append path is caught and reported as
`False`; a failing `to_csv` in the snapshot writer propagates. -/
theorem local_io_failure_boundaries_witness :
    append_to_csv false true false ⟨[], [], []⟩ []
      [("College Name", PyVal.pstr "Alpha")] "out" "c.csv" =
      .ok (⟨[], [], []⟩,
        (_get_csv_name_cache ⟨[], [], []⟩ [] (pathJoin "out" "c.csv")).1, false) ∧
    save_to_csv false false ⟨[], [], []⟩ [[("College Name", PyVal.pstr "A")]]
      "out" "c.csv" = .error "OSError: to_csv failed" := by
  refine ⟨?_, ?_⟩
  · exact local_io_failure_boundaries.1 ⟨[], [], []⟩ []
      [("College Name", PyVal.pstr "Alpha")] "out" "c.csv" "Alpha"
      rfl (by decide) (by decide)
  · exact local_io_failure_boundaries.2.2.2.2.2 ⟨[], [], []⟩
      [[("College Name", PyVal.pstr "A")]] "out" "c.csv"
      [[("College Name", PyVal.pstr "A")]] rfl rfl

theorem alookup_aset_self {α : Type} (l : List (String × α)) (k : String) (v : α) :
    alookup (aset l k v) k = some v := by
  unfold aset
  by_cases h : (l.find? (fun kv => kv.1 = k)).isSome
  · rw [if_pos h]
    obtain ⟨p, hp⟩ := Option.isSome_iff_exists.mp h
    exact alookup_aupdate_self l k v p.2 (by unfold alookup; rw [hp]; rfl)
  · rw [if_neg h]
    have hnone : alookup l k = none := by
      unfold alookup
      cases hf : l.find? (fun kv => kv.1 = k) with
      | none => rfl
      | some p => rw [hf] at h; simp at h
    rw [alookup_append, hnone]
    simp [alookup]

theorem alookup_aset_isSome_preserve {α : Type} (l : List (String × α))
    (k : String) (v : α) (p : String) (h : (alookup l p).isSome) :
    (alookup (aset l k v) p).isSome := by
  by_cases hp : p = k
  · subst hp
    rw [alookup_aset_self]
    rfl
  · unfold aset
    by_cases hf : (l.find? (fun kv => kv.1 = k)).isSome
    · rw [if_pos hf, alookup_aupdate_ne l k p v hp]
      exact h
    · rw [if_neg hf, alookup_append]
      obtain ⟨w, hw⟩ := Option.isSome_iff_exists.mp h
      rw [hw]
      rfl

/-- The snapshot writer on a writable filesystem and non-empty input: always
produces the file and returns its path. -/
theorem save_to_csv_writes (fs : Fs) (data : List Dict) (dir fn : String)
    (dd : List Dict) (hne : data.isEmpty = false)
    (hdd : deduplicate_colleges data = .ok dd) :
    save_to_csv false true fs data dir fn =
      .ok ({ fs with csvFiles := (aset fs.csvFiles (pathJoin dir fn)
        ⟨unionKeys dd, dd.map (renderRow (unionKeys dd))⟩) }, some (pathJoin dir fn)) := by
  unfold save_to_csv
  rw [if_neg (by simp : ¬ (false : Bool) = true), if_neg (by simp [hne])]
  show (deduplicate_colleges data).bind _ = _
  rw [hdd]
  rfl

/-- The JSON document writer on a writable filesystem and non-empty,
well-typed input: always writes the envelope and returns its path. -/
theorem save_to_json_writes (credsOk : Bool) (fs : Fs) (db : DB)
    (data : List Dict) (dir fn : String) (push : Bool)
    (cp sp loc u jid : Option String) (dd td : List Dict)
    (hne : data.isEmpty = false)
    (hdd : deduplicate_colleges data = .ok dd)
    (htd : transform_college_data dd = .ok td) :
    ∃ db' ops', save_to_json false credsOk true fs db data dir fn push cp sp loc u jid =
      .ok ({ fs with jsonFiles := (aset fs.jsonFiles (pathJoin dir fn)
          [("colleges", PyVal.plist (td.map PyVal.pdict))]) }, db', ops',
        some (pathJoin dir fn)) := by
  cases push with
  | true =>
    refine ⟨(save_to_supabase credsOk db [("colleges", PyVal.plist (td.map PyVal.pdict))]
        cp sp loc u jid).1,
      (save_to_supabase credsOk db [("colleges", PyVal.plist (td.map PyVal.pdict))]
        cp sp loc u jid).2.1, ?_⟩
    unfold save_to_json
    rw [if_neg (by simp [hne])]
    show (deduplicate_colleges data).bind _ = _
    rw [hdd]
    show (transform_college_data dd).bind _ = _
    rw [htd]
    rfl
  | false =>
    refine ⟨db, [], ?_⟩
    unfold save_to_json
    rw [if_neg (by simp [hne])]
    show (deduplicate_colleges data).bind _ = _
    rw [hdd]
    show (transform_college_data dd).bind _ = _
    rw [htd]
    rfl

/-- With no data, the batch-persister loop touches nothing and returns its
accumulators unchanged. -/
theorem save_data_go_empty (credsOk : Bool) (dir base : String) (push : Bool)
    (cp sp loc u jid : Option String) :
    ∀ (formats : List String) (fs : Fs) (db : DB) (ops : List WriteOp)
      (saved : List (String × String)),
    save_data.go false credsOk true [] dir base push cp sp loc u jid
      formats fs db ops saved = .ok (fs, db, ops, saved) := by
  intro formats
  induction formats with
  | nil => intro fs db ops saved; rfl
  | cons f rest ih =>
    intro fs db ops saved
    by_cases hc : pyLower f = "csv"
    · simp only [save_data.go]
      rw [if_pos hc]
      have h0 : save_to_csv false true fs ([] : List Dict) dir
          (if pyEndsWith base ".csv" then base else base ++ ".csv") = .ok (fs, none) := rfl
      rw [h0]
      exact ih fs db ops saved
    · by_cases hj : pyLower f = "json"
      · simp only [save_data.go]
        rw [if_neg hc, if_pos hj]
        have h0 : save_to_json false credsOk true fs db ([] : List Dict) dir
            (pyReplace (if pyEndsWith base ".json" then base else base ++ ".json")
              ".csv" ".json") push cp sp loc u jid = .ok (fs, db, [], none) := rfl
        rw [h0]
        exact (ih fs db (ops ++ []) saved).trans (by rw [List.append_nil])
      · simp only [save_data.go]
        rw [if_neg hc, if_neg hj]
        exact ih fs db ops saved

/-- The batch-persister loop on writable storage with well-typed, non-empty
data: it never fails, existing result entries survive, and every processed
csv/json format gains an entry. -/
theorem save_data_go_covers (credsOk : Bool) (data : List Dict) (dir base : String)
    (push : Bool) (cp sp loc u jid : Option String) (dd td : List Dict)
    (hne : data.isEmpty = false) (hdd : deduplicate_colleges data = .ok dd)
    (htd : transform_college_data dd = .ok td) :
    ∀ (formats : List String) (fs : Fs) (db : DB) (ops : List WriteOp)
      (saved : List (String × String)),
    (∀ f ∈ formats, pyLower f = "csv" ∨ pyLower f = "json") →
    ∃ res, save_data.go false credsOk true data dir base push cp sp loc u jid
        formats fs db ops saved = .ok res ∧
      (∀ p, (alookup saved p).isSome → (alookup res.2.2.2 p).isSome) ∧
      (∀ f ∈ formats, (alookup res.2.2.2 (pyLower f)).isSome) := by
  intro formats
  induction formats with
  | nil =>
    intro fs db ops saved hf
    exact ⟨(fs, db, ops, saved), rfl, fun p hp => hp, by simp⟩
  | cons f rest ih =>
    intro fs db ops saved hf
    rcases hf f (by simp) with hcsv | hjson
    · have hstep := save_to_csv_writes fs data dir
        (if pyEndsWith base ".csv" then base else base ++ ".csv") dd hne hdd
      have hred : save_data.go false credsOk true data dir base push cp sp loc u jid
          (f :: rest) fs db ops saved =
          save_data.go false credsOk true data dir base push cp sp loc u jid rest
            { fs with csvFiles := (aset fs.csvFiles
              (pathJoin dir (if pyEndsWith base ".csv" then base else base ++ ".csv"))
              ⟨unionKeys dd, dd.map (renderRow (unionKeys dd))⟩) } db ops
            (aset saved "csv"
              (pathJoin dir (if pyEndsWith base ".csv" then base else base ++ ".csv"))) := by
        simp only [save_data.go]
        rw [if_pos hcsv, hstep]
        rfl
      obtain ⟨res, hres, hpres, hcov⟩ := ih _ db ops
        (aset saved "csv"
          (pathJoin dir (if pyEndsWith base ".csv" then base else base ++ ".csv")))
        (fun g hg => hf g (by simp [hg]))
      refine ⟨res, hred.trans hres, ?_, ?_⟩
      · intro p hp
        exact hpres p (alookup_aset_isSome_preserve _ _ _ _ hp)
      · intro g hg
        rcases List.mem_cons.mp hg with hg1 | hg2
        · subst hg1
          rw [hcsv]
          exact hpres "csv" (by rw [alookup_aset_self]; rfl)
        · exact hcov g hg2
    · obtain ⟨db', ops', hstep⟩ := save_to_json_writes credsOk fs db data dir
        (pyReplace (if pyEndsWith base ".json" then base else base ++ ".json")
          ".csv" ".json") push cp sp loc u jid dd td hne hdd htd
      have hred : save_data.go false credsOk true data dir base push cp sp loc u jid
          (f :: rest) fs db ops saved =
          save_data.go false credsOk true data dir base push cp sp loc u jid rest
            { fs with jsonFiles := (aset fs.jsonFiles
              (pathJoin dir (pyReplace (if pyEndsWith base ".json" then base
                else base ++ ".json") ".csv" ".json"))
              [("colleges", PyVal.plist (td.map PyVal.pdict))]) } db' (ops ++ ops')
            (aset saved "json"
              (pathJoin dir (pyReplace (if pyEndsWith base ".json" then base
                else base ++ ".json") ".csv" ".json"))) := by
        simp only [save_data.go]
        rw [if_neg (by rw [hjson]; decide), if_pos hjson, hstep]
        rfl
      obtain ⟨res, hres, hpres, hcov⟩ := ih _ db' (ops ++ ops')
        (aset saved "json"
          (pathJoin dir (pyReplace (if pyEndsWith base ".json" then base
            else base ++ ".json") ".csv" ".json")))
        (fun g hg => hf g (by simp [hg]))
      refine ⟨res, hred.trans hres, ?_, ?_⟩
      · intro p hp
        exact hpres p (alookup_aset_isSome_preserve _ _ _ _ hp)
      · intro g hg
        rcases List.mem_cons.mp hg with hg1 | hg2
        · subst hg1
          rw [hjson]
          exact hpres "json" (by rw [alookup_aset_self]; rfl)
        · exact hcov g hg2

/-- Claim C9: on writable storage with well-typed data, the batch persister
returns an output location for every requested format (`csv`/`json`,
case-insensitively), and an empty input batch is not an error — it yields an
empty result map with no writes. -/
theorem save_data_covers_requested_formats (credsOk : Bool) (fs : Fs) (db : DB)
    (data : List Dict) (dir base : String) (formats : List String) (push : Bool)
    (cp sp loc u jid : Option String)
    (hfmts : ∀ f ∈ formats, pyLower f = "csv" ∨ pyLower f = "json") :
    (data = [] → save_data false credsOk true fs db data dir base formats push
      cp sp loc u jid = .ok (fs, db, [], [])) ∧
    (∀ dd td, data.isEmpty = false → deduplicate_colleges data = .ok dd →
      transform_college_data dd = .ok td →
      ∃ res, save_data false credsOk true fs db data dir base formats push
          cp sp loc u jid = .ok res ∧
        ∀ f ∈ formats, (alookup res.2.2.2 (pyLower f)).isSome) := by
  constructor
  · intro hdata
    subst hdata
    exact save_data_go_empty credsOk dir base push cp sp loc u jid formats fs db [] []
  · intro dd td hne hdd htd
    obtain ⟨res, hres, _, hcov⟩ := save_data_go_covers credsOk data dir base push
      cp sp loc u jid dd td hne hdd htd formats fs db [] [] hfmts
    exact ⟨res, hres, hcov⟩

/-- Witness for `save_data_covers_requested_formats`: the empty batch yields
the empty map; a one-record batch requested as `csv` and `json` yields an
entry for both formats. -/
theorem save_data_covers_requested_formats_witness :
    (save_data false true true ⟨[], [], []⟩ ⟨[], [], 1⟩ [] "out" "base"
      ["csv", "json"] false none none none none none =
      .ok (⟨[], [], []⟩, ⟨[], [], 1⟩, [], [])) ∧
    (∃ res, save_data false true true ⟨[], [], []⟩ ⟨[], [], 1⟩
        [[("College Name", PyVal.pstr "Alpha")]] "out" "base"
        ["csv", "json"] false none none none none none = .ok res ∧
      ∀ f ∈ (["csv", "json"] : List String), (alookup res.2.2.2 (pyLower f)).isSome) := by
  constructor
  · exact (save_data_covers_requested_formats true ⟨[], [], []⟩ ⟨[], [], 1⟩ []
      "out" "base" ["csv", "json"] false none none none none none
      (by decide)).1 rfl
  · exact (save_data_covers_requested_formats true ⟨[], [], []⟩ ⟨[], [], 1⟩
      [[("College Name", PyVal.pstr "Alpha")]] "out" "base" ["csv", "json"] false
      none none none none none (by decide)).2
      [[("College Name", PyVal.pstr "Alpha")]]
      [[("city", PyVal.pstr ""), ("name", PyVal.pstr "Alpha"), ("type", PyVal.pstr ""),
        ("course_category", PyVal.pstr ""), ("total_courses", PyVal.pstr ""),
        ("match_percentage", PyVal.pstr ""), ("match_level", PyVal.pstr ""),
        ("has_website_link", PyVal.pstr ""), ("college_id", PyVal.pstr ""),
        ("courses", PyVal.plist [])]]
      rfl rfl rfl

end Disha
